import Mathlib

/-!
# Verification of the staged decision pipeline (zhifei repository)

A shallow embedding, in Lean 4, of the rule-driven decision pipeline of the
repository: the project classifier (`project_profile_service.py`), the region
upgrade resolver (`region_upgrade_service.py`), the domain resolver and pack
selector (`kg_context_service.py`), the precheck gate
(`precheck_guard_service.py`), the audit/replay validator (`audit_service.py`)
and the pack manager (`scripts/kg_pack.py`).

Modelling conventions, used throughout:
* Python JSON values are the inductive `Json` below; JSON numbers are
  modelled as `Int` (the payloads and artifacts the claims quantify over
  contain no fractional numbers).  Rule-file threshold values, which the
  source coerces with `float(...)`, are modelled as `ℚ` in a dedicated
  record per service.
* Python dicts are ordered association lists (`List (String × Json)`),
  matching Python's insertion-order semantics; `dict.get` returns `Json.null`
  for a missing key, matching Python's `None` default.
* `str.strip()` is modelled over the ASCII whitespace characters
  (space, tab, CR, LF).
* File systems are ordered association lists from path strings to byte
  contents (`List Nat`); path joining is string concatenation with `/`;
  `resolve()` is the identity (no symlinks or `..` segments are modelled).
* `hashlib.sha256` is embedded as the full SHA-256 algorithm over byte lists,
  so that concrete digests can be evaluated inside Lean.
-/

/- Rational arithmetic must evaluate inside `decide` proofs below; the
library marks these operations irreducible, which only affects unfolding,
not their meaning. -/
unseal Rat.add Rat.sub Rat.mul Rat.inv

set_option maxRecDepth 2000

/-! ## JSON values -/

/-- A Python/JSON value: `None`, `bool`, `int`, `str`, `list`, `dict`
(ordered association list, insertion-order semantics). -/
inductive Json where
  | null
  | bool (b : Bool)
  | num (n : Int)
  | str (s : String)
  | arr (xs : List Json)
  | obj (kvs : List (String × Json))

namespace Json

/-- `d.get(k)` on a dict: first binding wins, `None` when absent.
On a non-dict value the services never call `.get`, so we return `null`. -/
def get : Json → String → Json
  | obj kvs, k => ((kvs.find? (fun kv => kv.1 = k)).map Prod.snd).getD Json.null
  | _, _ => Json.null

/-- Python truthiness of a JSON value (`if v:`). -/
def truthy : Json → Bool
  | null => false
  | bool b => b
  | num n => n != 0
  | str s => s != ""
  | arr xs => !xs.isEmpty
  | obj kvs => !kvs.isEmpty

/-- Python `a or b` on JSON values. -/
def pyOr (a b : Json) : Json := if a.truthy then a else b

/-- Is this value a string? -/
def isStr : Json → Bool
  | str _ => true
  | _ => false

/-- The string content, for string values (`""` otherwise; callers guard
with `isStr`). -/
def asStr : Json → String
  | str s => s
  | _ => ""

end Json

/-! ## Small string utilities shared by the services -/

/-- ASCII whitespace, the characters `str.strip()` removes on the inputs the
pipeline handles. -/
def isWs (c : Char) : Bool := c = ' ' || c = '\t' || c = '\n' || c = '\r'

/-- Python `s.strip()`. -/
def pyStrip (s : String) : String :=
  ⟨((s.data.dropWhile isWs).reverse.dropWhile isWs).reverse⟩

/-- Substring containment on char lists (`needle in hay` for Python `str`). -/
def listContains (hay needle : List Char) : Bool :=
  match hay with
  | [] => needle.isEmpty
  | _ :: rest => needle.isPrefixOf hay || listContains rest needle

/-- Python `needle in hay` for strings. -/
def strContains (hay needle : String) : Bool := listContains hay.data needle.data

/-- Lexicographic code-point comparison on char lists. -/
def charListLt : List Char → List Char → Bool
  | [], [] => false
  | [], _ :: _ => true
  | _ :: _, [] => false
  | a :: as, b :: bs =>
      a.toNat < b.toNat || (a.toNat = b.toNat && charListLt as bs)

/-- Lexicographic code-point comparison, Python `<` on `str`. -/
def strLt (a b : String) : Bool := charListLt a.data b.data

/-- Stable insertion: `a` goes before the first element `b` with `le a b`
false... (we insert before `b` exactly when `le a b`). -/
def insertLe {α : Type} (le : α → α → Bool) (a : α) : List α → List α
  | [] => [a]
  | b :: bs => if le a b then a :: b :: bs else b :: insertLe le a bs

/-- Stable sort by a boolean `le` (insertion sort): Python's stable `sorted`.
For stability, `le a b` must hold on ties. -/
def stableSortLe {α : Type} (le : α → α → Bool) (l : List α) : List α :=
  l.foldr (insertLe le) []

/-- Python `sorted` on strings (ascending code-point order, stable). -/
def pySortStrings (l : List String) : List String :=
  stableSortLe (fun a b => strLt a b || a = b) l

/-- Deduplicate keeping first occurrences (models a Python `set` that is
immediately sorted: only membership matters). -/
def dedup (l : List String) : List String :=
  l.foldl (fun acc s => if acc.contains s then acc else acc ++ [s]) []

/-! ## `json.dumps` (the three serializations used by the pipeline)

`project_profile_service._stable_sha256` and
`precheck_guard_service._stable_sha256` serialize with
`sort_keys=True, separators=(",", ":")`; `kg_context_service.build_kg_context`
serializes with `sort_keys=True` and the *default* separators `(", ", ": ")`;
`kg_pack._write_cfg` serializes with `indent=2` (and separators
`(",", ": ")`, Python's default when `indent` is given).  `ensure_ascii=False`
everywhere, so only `"`, `\` and control characters are escaped. -/

/-- A single hex digit. -/
def hexDigit (n : Nat) : Char :=
  if n < 10 then Char.ofNat ('0'.toNat + n) else Char.ofNat ('a'.toNat + (n - 10))

/-- JSON string escaping with `ensure_ascii=False`: escape `"`, `\`, the
named control escapes, and other chars below 0x20 as `\u00XX`. -/
def escapeChar (c : Char) : List Char :=
  if c = '"' then ['\\', '"']
  else if c = '\\' then ['\\', '\\']
  else if c = '\n' then ['\\', 'n']
  else if c = '\t' then ['\\', 't']
  else if c = '\r' then ['\\', 'r']
  else if c = '\x08' then ['\\', 'b']
  else if c = '\x0c' then ['\\', 'f']
  else if c.toNat < 0x20 then
    ['\\', 'u', '0', '0', hexDigit (c.toNat / 16), hexDigit (c.toNat % 16)]
  else [c]

/-- `json.dumps` of a string literal (with `ensure_ascii=False`). -/
def dumpStr (s : String) : String :=
  ⟨'"' :: s.data.flatMap escapeChar ++ ['"']⟩

/-- `json.dumps` of a scalar. -/
def dumpScalar : Json → String
  | .null => "null"
  | .bool true => "true"
  | .bool false => "false"
  | .num n => toString n
  | .str s => dumpStr s
  | _ => ""

mutual

/-- `json.dumps` with `sort_keys=True`, explicit separators
`(itemSep, kvSep)` and no indentation. -/
def dumpsSep (itemSep kvSep : String) : Json → String
  | .arr xs => "[" ++ String.intercalate itemSep (dumpsSepList itemSep kvSep xs) ++ "]"
  | .obj kvs =>
      let items := dumpsSepKvs itemSep kvSep kvs
      let sorted := stableSortLe (fun a b => strLt a.1 b.1 || a.1 = b.1) items
      "\x7b" ++ String.intercalate itemSep (sorted.map Prod.snd) ++ "\x7d"
  | v => dumpScalar v

/-- Serialize the elements of a JSON array. -/
def dumpsSepList (itemSep kvSep : String) : List Json → List String
  | [] => []
  | x :: xs => dumpsSep itemSep kvSep x :: dumpsSepList itemSep kvSep xs

/-- Serialize the bindings of a JSON object, keeping each original key for
the stable `sort_keys=True` sort applied by `dumpsSep` (sorting the rendered
pairs by key is the same as sorting the bindings first, since rendering is
pointwise). -/
def dumpsSepKvs (itemSep kvSep : String) : List (String × Json) → List (String × String)
  | [] => []
  | kv :: kvs =>
      (kv.1, dumpStr kv.1 ++ kvSep ++ dumpsSep itemSep kvSep kv.2) ::
        dumpsSepKvs itemSep kvSep kvs

end

/-- `json.dumps(v, ensure_ascii=False, sort_keys=True, separators=(",", ":"))`
— the canonicalization hashed by `_stable_sha256` in
`project_profile_service.py` and `precheck_guard_service.py`. -/
def dumpsCompact (v : Json) : String := dumpsSep "," ":" v

/-- `json.dumps(v, ensure_ascii=False, sort_keys=True)` — the default
separators `(", ", ": ")` — the canonicalization hashed by
`kg_context_service.build_kg_context`. -/
def dumpsDefault (v : Json) : String := dumpsSep ", " ": " v

/-! ## UTF-8 and SHA-256 -/

/-- UTF-8 encoding of a single scalar value (code point). -/
def utf8Char (c : Char) : List Nat :=
  let n := c.toNat
  if n < 0x80 then [n]
  else if n < 0x800 then [0xc0 + n / 64, 0x80 + n % 64]
  else if n < 0x10000 then [0xe0 + n / 4096, 0x80 + n / 64 % 64, 0x80 + n % 64]
  else [0xf0 + n / 262144, 0x80 + n / 4096 % 64, 0x80 + n / 64 % 64, 0x80 + n % 64]

/-- UTF-8 encoding of a string (`s.encode("utf-8")`). -/
def utf8Encode (s : String) : List Nat := s.data.flatMap utf8Char

/-- 32-bit truncation. -/
def w32 (n : Nat) : Nat := n % 4294967296

/-- 32-bit right rotation. -/
def rotr (k n : Nat) : Nat := w32 (n / 2 ^ k + n % 2 ^ k * 2 ^ (32 - k))

/-- Bitwise complement within 32 bits. -/
def wnot (n : Nat) : Nat := 4294967295 - n % 4294967296

namespace Sha256

def ch (e f g : Nat) : Nat := (e &&& f) ^^^ (wnot e &&& g)
def maj (a b c : Nat) : Nat := (a &&& b) ^^^ (a &&& c) ^^^ (b &&& c)
def bigSigma0 (a : Nat) : Nat := rotr 2 a ^^^ rotr 13 a ^^^ rotr 22 a
def bigSigma1 (e : Nat) : Nat := rotr 6 e ^^^ rotr 11 e ^^^ rotr 25 e
def smallSigma0 (x : Nat) : Nat := rotr 7 x ^^^ rotr 18 x ^^^ (x >>> 3)
def smallSigma1 (x : Nat) : Nat := rotr 17 x ^^^ rotr 19 x ^^^ (x >>> 10)

/-- Value of one lowercase hex digit. -/
def hexVal (c : Char) : Nat :=
  if 97 ≤ c.toNat then c.toNat - 87 else c.toNat - 48

/-- One 32-bit word from eight hex digits. -/
def hexWord (s : String) : Nat :=
  s.data.foldl (fun a c => a * 16 + hexVal c) 0

/-- The 64 SHA-256 round constants (FIPS 180-4). -/
def K : List Nat := List.map hexWord
  ["428a2f98", "71374491", "b5c0fbcf", "e9b5dba5", "3956c25b", "59f111f1", "923f82a4", "ab1c5ed5",
   "d807aa98", "12835b01", "243185be", "550c7dc3", "72be5d74", "80deb1fe", "9bdc06a7", "c19bf174",
   "e49b69c1", "efbe4786", "0fc19dc6", "240ca1cc", "2de92c6f", "4a7484aa", "5cb0a9dc", "76f988da",
   "983e5152", "a831c66d", "b00327c8", "bf597fc7", "c6e00bf3", "d5a79147", "06ca6351", "14292967",
   "27b70a85", "2e1b2138", "4d2c6dfc", "53380d13", "650a7354", "766a0abb", "81c2c92e", "92722c85",
   "a2bfe8a1", "a81a664b", "c24b8b70", "c76c51a3", "d192e819", "d6990624", "f40e3585", "106aa070",
   "19a4c116", "1e376c08", "2748774c", "34b0bcb5", "391c0cb3", "4ed8aa4a", "5b9cca4f", "682e6ff3",
   "748f82ee", "78a5636f", "84c87814", "8cc70208", "90befffa", "a4506ceb", "bef9a3f7", "c67178f2"]

/-- Initial hash state (FIPS 180-4). -/
def H0 : List Nat := List.map hexWord
  ["6a09e667", "bb67ae85", "3c6ef372", "a54ff53a", "510e527f", "9b05688c", "1f83d9ab", "5be0cd19"]

/-- Big-endian 8-byte encoding of a (< 2^64) number. -/
def be64 (n : Nat) : List Nat :=
  [n / 2 ^ 56 % 256, n / 2 ^ 48 % 256, n / 2 ^ 40 % 256, n / 2 ^ 32 % 256,
   n / 2 ^ 24 % 256, n / 2 ^ 16 % 256, n / 2 ^ 8 % 256, n % 256]

/-- SHA-256 padding: `0x80`, zeros to 56 mod 64, then the bit length. -/
def pad (msg : List Nat) : List Nat :=
  let l := msg.length
  let zeros := (119 - l % 64) % 64
  msg ++ 0x80 :: List.replicate zeros 0 ++ be64 (l * 8)

/-- Split into 64-byte blocks (fuel = list length, always sufficient). -/
def toBlocksF : Nat → List Nat → List (List Nat)
  | 0, _ => []
  | _ + 1, [] => []
  | n + 1, l => l.take 64 :: toBlocksF n (l.drop 64)

/-- Parse a 64-byte block into 16 big-endian 32-bit words. -/
def toWordsF : Nat → List Nat → List Nat
  | 0, _ => []
  | _ + 1, [] => []
  | n + 1, l => (l.take 4).foldl (fun acc b => acc * 256 + b) 0 :: toWordsF n (l.drop 4)

/-- Message schedule: extend 16 words to 64. -/
def extend : Nat → List Nat → List Nat
  | 0, w => w
  | n + 1, w =>
      let t := w.length
      let nw := w32 (smallSigma1 (w.getD (t - 2) 0) + w.getD (t - 7) 0 +
                     smallSigma0 (w.getD (t - 15) 0) + w.getD (t - 16) 0)
      extend n (w ++ [nw])

/-- One compression round. -/
def round1 (st : List Nat) (kw : Nat × Nat) : List Nat :=
  match st with
  | [a, b, c, d, e, f, g, h] =>
      let t1 := w32 (h + bigSigma1 e + ch e f g + kw.1 + kw.2)
      let t2 := w32 (bigSigma0 a + maj a b c)
      [w32 (t1 + t2), a, b, c, w32 (d + t1), e, f, g]
  | st => st

/-- Compress one block into the running hash state. -/
def compress (h : List Nat) (block : List Nat) : List Nat :=
  let w := extend 48 (toWordsF 16 block)
  let st := (K.zip w).foldl round1 h
  (h.zip st).map (fun p => w32 (p.1 + p.2))

/-- The eight-word digest of a byte message. -/
def digestWords (msg : List Nat) : List Nat :=
  let padded := pad msg
  (toBlocksF padded.length padded).foldl compress H0

/-- Eight hex digits of one 32-bit word. -/
def wordHex (n : Nat) : List Char :=
  [hexDigit (n / 2 ^ 28 % 16), hexDigit (n / 2 ^ 24 % 16),
   hexDigit (n / 2 ^ 20 % 16), hexDigit (n / 2 ^ 16 % 16),
   hexDigit (n / 2 ^ 12 % 16), hexDigit (n / 2 ^ 8 % 16),
   hexDigit (n / 2 ^ 4 % 16), hexDigit (n % 16)]

end Sha256

/-- `hashlib.sha256(bytes).hexdigest()`. -/
def sha256Hex (msg : List Nat) : String :=
  ⟨(Sha256.digestWords msg).flatMap Sha256.wordHex⟩

/-! ## Rounding (Python `round(x, 2)`)

Python `round` rounds half to even.  The source applies it to confidence
values; we model the arithmetic over `ℚ`. -/

/-- Round-half-to-even to an integer (`Rat.floor` is used rather than `⌊·⌋`
so the definition evaluates in the kernel; they agree). -/
def roundHalfEven (x : ℚ) : ℤ :=
  if x - Rat.floor x < 1 / 2 then Rat.floor x
  else if 1 / 2 < x - Rat.floor x then Rat.floor x + 1
  else if Rat.floor x % 2 = 0 then Rat.floor x else Rat.floor x + 1

/-- Python `round(x, 2)`. -/
def round2 (x : ℚ) : ℚ := roundHalfEven (x * 100) / 100

/-- Python `min` on two rationals (spelled with `if` so it evaluates in the
kernel; it agrees with `min`). -/
def pymin (a b : ℚ) : ℚ := if a ≤ b then a else b

/-! ## Project classifier (`project_profile_service.py`)

`generate_project_profile` reads its rule file once per request; the fields
of that file the classifier consults are modelled by `ProfileRules`
(`none` = key absent, so the source's `dict.get` default applies).  The
trailing `[PATCH] project_profile_rule_meta` block of the source only adds
`rule_path`/`rule_sha256` fields to the returned dict; it changes none of
the fields the claims are about and is not modelled. -/

namespace ProjectProfile

/-- The rule-file fields read by the classifier:
`project_type_inference.base_confidence`,
`confidence_thresholds.auto_accept`,
`confidence_thresholds.require_manual_confirm`, and
`mandatory_dimension_inference.base_rules`
(each entry `if_project_type ↦ mandatory_dimensions`). -/
structure Rules where
  base_confidence : Option ℚ
  auto_accept : Option ℚ
  require_manual_confirm : Option ℚ
  base_rules : List (String × List String)

/-- A rule file with none of the optional fields set. -/
def Rules.empty : Rules := ⟨none, none, none, []⟩

/-- `_stable_sha256`: sha256 of the compact, key-sorted JSON serialization. -/
def stable_sha256 (v : Json) : String := sha256Hex (utf8Encode (dumpsCompact v))

/-- The fixed text-bearing fields concatenated by `_extract_text`. -/
def text_keys : List String :=
  ["project_name", "project_title", "topic", "outline", "description",
   "content", "text", "工程名称", "项目名称", "工点名称"]

/-- `_extract_text`: join the stripped string-valued fields with newlines. -/
def extract_text (payload : List (String × Json)) : String :=
  String.intercalate "\n" (text_keys.filterMap (fun k =>
    match (Json.obj payload).get k with
    | Json.str s => if pyStrip s ≠ "" then some (pyStrip s) else none
    | _ => none))

/-- The explicit project-type fields trusted at confidence 1.0. -/
def explicit_keys : List String :=
  ["project_type", "工程类型", "project_category", "domain_cn"]

/-- The first explicit project-type field present with a non-blank string
value, with its stripped value. -/
def findExplicit (payload : List (String × Json)) : Option (String × String) :=
  explicit_keys.findSome? (fun k =>
    match (Json.obj payload).get k with
    | Json.str s => if pyStrip s ≠ "" then some (k, pyStrip s) else none
    | _ => none)

/-- The fixed keyword table of `_infer_project_type`. -/
def mapping : List (String × List String) :=
  [("幕墙工程", ["幕墙", "玻璃幕墙", "石材幕墙", "铝板幕墙", "单元式幕墙"]),
   ("装饰装修", ["装修", "装饰", "精装", "室内装饰", "吊顶", "墙面", "地面", "涂料", "石材", "木饰面"]),
   ("市政排水", ["排水", "雨水", "污水", "雨污", "管网", "管道", "顶管", "检查井", "泵站", "污水处理"]),
   ("市政道路", ["市政道路", "道路", "路面", "沥青", "水稳", "路基", "人行道", "交通导改", "标线", "标志"]),
   ("房建", ["房建", "住宅", "楼", "主体结构", "钢筋", "混凝土", "基础", "桩基", "结构施工"]),
   ("机电安装", ["机电", "暖通", "空调", "电气", "消防", "给排水", "弱电", "桥架", "风管", "管线"]),
   ("园林景观", ["园林", "绿化", "景观", "铺装", "广场", "乔木", "灌木", "草坪", "园建"])]

/-- The project-type block of a ProjectProfile. -/
structure PTInfo where
  value : Option String
  confidence : ℚ
  source : String
  evidence : List String
deriving DecidableEq

/-- `_infer_project_type`: explicit field first (confidence 1.0); otherwise
keyword scoring, base confidence capped at 0.80, result capped at 0.85,
rounded to two decimals; ties broken by first declaration order (stable
reverse sort on hit count). -/
def infer_project_type (payload : List (String × Json)) (rules : Rules) : PTInfo :=
  match findExplicit payload with
  | some kv => ⟨some kv.2, 1, "explicit:" ++ kv.1, ["payload." ++ kv.1]⟩
  | none =>
    let text := extract_text payload
    if text = "" then ⟨none, 0, "none", []⟩
    else
      let base_conf : ℚ := pymin (rules.base_confidence.getD (3 / 4)) (4 / 5)
      let hits := mapping.filterMap (fun pk =>
        let found := pk.2.filter (fun kw => strContains text kw)
        if found.isEmpty then none else some (pk.1, found.length, found))
      match stableSortLe (fun a b => b.2.1 ≤ a.2.1) hits with
      | [] => ⟨none, 0, "keyword:none", []⟩
      | (ptype, n, found) :: _ =>
          let conf := round2 (pymin (17 / 20) (base_conf + 3 / 100 * ((n - 1 : ℕ) : ℚ)))
          ⟨some ptype, conf, "keyword", found⟩

/-- `_infer_mandatory_dimensions`: exact project-type match in the rule
table; no match (or no type) yields `[]`. -/
def infer_mandatory_dimensions (ptype : Option String) (rules : Rules) : List String :=
  match ptype with
  | none => []
  | some t => (rules.base_rules.find? (fun r => r.1 = t)).map Prod.snd |>.getD []

/-- The ProjectProfile fields the claims are about. -/
structure Profile where
  input_sha256 : String
  project_type : PTInfo
  mandatory_dimensions : List String
  decision : String
deriving DecidableEq

/-- `generate_project_profile` (thresholds default to 0.85 / 0.70; the
`float(... or 0.0)` guard on the confidence is the identity on `ℚ`). -/
def generate_project_profile (payload : List (String × Json)) (rules : Rules) : Profile :=
  let auto_accept := rules.auto_accept.getD (17 / 20)
  let require_manual := rules.require_manual_confirm.getD (7 / 10)
  let info := infer_project_type payload rules
  let conf := info.confidence
  { input_sha256 := stable_sha256 (Json.obj payload)
    project_type := info
    mandatory_dimensions := infer_mandatory_dimensions info.value rules
    decision :=
      if auto_accept ≤ conf then "auto_accept"
      else if require_manual ≤ conf then "require_manual_confirm"
      else "block_and_review" }

end ProjectProfile

/-! ## A file system, as the services see it

The pipeline reads rule and artifact files from local disk.  A file system
state is an association list from path to raw bytes, together with the
`json.loads` outcome for each path (`none` = parse error); since a JSON
parser is not embedded, the parse outcome is carried as part of the state
and only consulted for paths that exist. -/

structure FileSys where
  files : List (String × List Nat)
  parsed : List (String × Option Json)
  dirs : List String := []

namespace FileSys

/-- `Path.exists()` for a file. -/
def exists? (fs : FileSys) (p : String) : Bool :=
  (fs.files.find? (fun kv => kv.1 = p)).isSome

/-- `Path.read_bytes()` (callers guard with `exists?`). -/
def read (fs : FileSys) (p : String) : List Nat :=
  ((fs.files.find? (fun kv => kv.1 = p)).map Prod.snd).getD []

/-- `json.loads(path.read_text())`: `none` when the parse raises. -/
def loadJson (fs : FileSys) (p : String) : Option Json :=
  ((fs.parsed.find? (fun kv => kv.1 = p)).map Prod.snd).getD none

/-- `json.loads` of an existing file, `_safe_read_json`-style: `none` for a
missing file or a parse error. -/
def safeJson (fs : FileSys) (p : String) : Option Json :=
  if fs.exists? p then fs.loadJson p else none

/-- `Path.exists()` for a directory (the repository root `""` always
exists). -/
def dirExists? (fs : FileSys) (p : String) : Bool :=
  p = "" || fs.dirs.contains p

/-- `Path.exists()` as the pack manager uses it (file or directory). -/
def existsAny? (fs : FileSys) (p : String) : Bool :=
  fs.exists? p || fs.dirExists? p

end FileSys

/-- Join a base directory and a relative path (`Path./`; the base `""` is
the repository root). -/
def joinPath (base rel : String) : String :=
  if base = "" then rel else base ++ "/" ++ rel

/-- Insert-or-replace in an association list, keeping the position of an
existing key (Python dict assignment semantics). -/
def upsert {α : Type} : List (String × α) → String → α → List (String × α)
  | [], k, v => [(k, v)]
  | kv :: rest, k, v =>
      if kv.1 = k then (k, v) :: rest else kv :: upsert rest k v

/-- Key-membership test on a dict (`k in d`). -/
def hasKey (kvs : List (String × Json)) (k : String) : Bool :=
  (kvs.find? (fun kv => kv.1 = k)).isSome

/-! ## Configuration resolution (`kg_loader.py`)

`load_kg_config` reads `kg_config.json` and the getters resolve rule-file
paths against the active pack's base directory.  `KgCfg` carries the
resolved base directory and the configuration fields the pipeline reads;
an optional field set to `none` models the key being absent or falsy, on
which the corresponding getter raises `KGConfigError` (modelled as
`Option.none` results). -/

namespace KgLoader

/-- The configuration slice consumed by the pipeline services and the
audit validator. -/
structure KgCfg where
  base_dir : String
  project_profile_rules : Option String
  precheck_guard_rules : Option String
  domain_map : Option String
  region_upgrade_rules : List (String × String)
  base_packs : List String

/-- `kg_loader.get_project_profile_rule_path` (`none` = raises). -/
def get_project_profile_rule_path (cfg : KgCfg) : Option String :=
  cfg.project_profile_rules.bind (fun f =>
    if f = "" then none else some (joinPath cfg.base_dir f))

/-- `kg_loader.get_precheck_guard_rule_path` (`none` = raises). -/
def get_precheck_guard_rule_path (cfg : KgCfg) : Option String :=
  cfg.precheck_guard_rules.bind (fun f =>
    if f = "" then none else some (joinPath cfg.base_dir f))

/-- `kg_loader.get_domain_map_path` (`none` = raises). -/
def get_domain_map_path (cfg : KgCfg) : Option String :=
  cfg.domain_map.bind (fun f =>
    if f = "" then none else some (joinPath cfg.base_dir f))

/-- `kg_loader.get_region_upgrade_rule`: `None` for an unknown key or a
falsy configured name, else the base-dir-joined path. -/
def get_region_upgrade_rule (region_key : String) (cfg : KgCfg) : Option String :=
  match cfg.region_upgrade_rules.find? (fun kv => kv.1 = region_key) with
  | none => none
  | some kv => if kv.2 = "" then none else some (joinPath cfg.base_dir kv.2)

/-- `kg_loader.get_base_pack_paths`. -/
def get_base_pack_paths (cfg : KgCfg) : List String :=
  cfg.base_packs.map (joinPath cfg.base_dir)

end KgLoader

/-! ## PreCheck gate (`precheck_guard_service.py`)

`run_precheck_guard(payload, project_profile)` reads the guard rule file
resolved from the configuration; `GuardEnv` carries that file's path,
bytes and parse outcome.  The ASCII quote characters inside two of the
suggestion string literals of the source are transcribed as typographic
quotes. -/

namespace Precheck

/-- One `reasons` entry. -/
structure Reason where
  code : String
  severity : String
  message : String
deriving DecidableEq

/-- One `details` entry (a named check). -/
structure Detail where
  check_id : String
  passed : Bool
  observed : Json
  message : String

/-- The guard rule file as resolved by `kg_loader`: its path, bytes
(`none` = missing), and parse outcome (`none` = `json.loads` raised, in
which case the source substitutes a `\x7b"_raw_text": ...\x7d` dict whose
only consumer, `raw_rules.get("required_fields")`, ignores it). -/
structure GuardEnv where
  rule_path : String
  rule_bytes : Option (List Nat)
  rule_json : Option Json

/-- `_is_empty`: `None`, blank string, and empty collections are empty;
every other value (including `0` and `False`) is present. -/
def is_empty : Json → Bool
  | .null => true
  | .str s => pyStrip s == ""
  | .arr xs => xs.isEmpty
  | .obj kvs => kvs.isEmpty
  | _ => false

/-- Python `str(v)` as interpolated by the f-strings of `_humanize`:
`None`/`True`/`False`/numbers/strings verbatim; the pipeline only ever
interpolates scalars here, so containers are approximated by their JSON
serialization. -/
def pyShow : Json → String
  | .null => "None"
  | .bool true => "True"
  | .bool false => "False"
  | .num n => toString n
  | .str s => s
  | v => dumpsDefault v

/-- `str(v)` for an optional string field (`None` when absent). -/
def pyShowOpt : Option String → String
  | none => "None"
  | some s => s

/-- `_humanize(evaluation)`: the deterministic text render.  It reads
exactly the `passed`, `rule_path`, `rule_sha256`,
`project_profile_decision`, `reasons` and `suggested_actions` entries of
the evaluation dict, which are its six parameters here, in reading order. -/
def humanize (passed : Bool) (rule_path : String) (rule_sha256 : Option String)
    (decision : Json) (reasons : List Reason) (actions : List String) : String :=
  String.intercalate "\n"
    (["PreCheck Guard 结果：" ++ (if passed then "通过" else "阻断"),
      "- rule_path: " ++ rule_path,
      "- rule_sha256: " ++ pyShowOpt rule_sha256,
      "- project_profile_decision: " ++ pyShow decision,
      "",
      "命中问题："] ++
     (if reasons.isEmpty then ["- 无"]
      else reasons.map (fun r => "- [" ++ r.severity ++ "] " ++ r.code ++ ": " ++ r.message)) ++
     ["", "建议动作："] ++
     (if actions.isEmpty then ["- 无"] else actions.map (fun a => "- " ++ a)))

/-- The evaluation dict returned by `run_precheck_guard` (the fields the
claims are about; `generated_at_utc` is a timestamp and not modelled).
The source stores `human_readable = _humanize(evaluation)` as a final
entry of the same dict; here it is the derived
`Evaluation.human_readable` below, with the same value. -/
structure Evaluation where
  passed : Bool
  rule_path : String
  rule_sha256 : Option String
  input_sha256 : String
  project_profile_decision : Json
  reasons : List Reason
  suggested_actions : List String
  details : List Detail

/-- `evaluation["human_readable"]`: the `_humanize` render of the
evaluation. -/
def Evaluation.human_readable (ev : Evaluation) : String :=
  humanize ev.passed ev.rule_path ev.rule_sha256 ev.project_profile_decision
    ev.reasons ev.suggested_actions

/-- Python `v != "block_and_review"` on the profile decision value. -/
def isBlockDecision : Json → Bool
  | .str s => s == "block_and_review"
  | _ => false

/-- `run_precheck_guard(payload, project_profile)`. -/
def run_precheck_guard (payload project_profile : List (String × Json))
    (env : GuardEnv) : Evaluation :=
  let rule_sha256 : Option String := env.rule_bytes.map sha256Hex
  let raw_rules : Json :=
    match env.rule_bytes with
    | none => Json.obj []
    | some _ =>
      match env.rule_json with
      | some j => j
      | none => Json.obj [("_raw_text", Json.null)]
  -- A) baseline field checks
  let topic := (Json.obj payload).get "topic"
  let ok_topic := topic.isStr && pyStrip topic.asStr != ""
  let outline := (Json.obj payload).get "outline"
  let ok_outline := match outline with | .arr xs => !xs.isEmpty | _ => false
  -- B) project-profile decision gate
  let pp_decision := (Json.obj project_profile).get "decision"
  let ok_pp := !isBlockDecision pp_decision
  -- C) required fields declared by the guard rule file
  let rf := raw_rules.get "required_fields"
  let rfBlock : List Detail × List Reason × List String :=
    match rf with
    | .arr (x :: xs) =>
      let missing := (x :: xs).filterMap (fun f =>
        match f with
        | .str s => if is_empty ((Json.obj payload).get s) then some s else none
        | _ => none)
      ([⟨"REQUIRED_FIELDS_FROM_RULE", missing.isEmpty,
          Json.obj [("missing", Json.arr (missing.map Json.str))],
          "来自 PreCheck Guard 规则文件的必填字段检查"⟩],
       if missing.isEmpty then ([], [])
       else
         ([⟨"MISSING_REQUIRED_FIELDS", "ERROR",
            "缺少必填字段：" ++ String.intercalate ", " missing⟩],
          ["按 Guard 规则补齐字段：" ++ String.intercalate ", " missing]))
    | _ => ([], [], [])
  let details : List Detail :=
    [⟨"TOPIC_REQUIRED", ok_topic, topic, "topic 不能为空（用于项目意图/专业方向判定）"⟩,
     ⟨"OUTLINE_REQUIRED", ok_outline, outline, "outline 至少包含 1 个条目（用于章节/组稿边界）"⟩,
     ⟨"PROJECT_PROFILE_DECISION", ok_pp, pp_decision,
      "项目画像 decision=block_and_review 时，禁止进入生成（需补充信息或人工确认）"⟩] ++ rfBlock.1
  let reasons : List Reason :=
    (if ok_topic then [] else [⟨"TOPIC_EMPTY", "ERROR", "请求字段 topic 为空"⟩]) ++
    (if ok_outline then [] else [⟨"OUTLINE_EMPTY", "ERROR", "请求字段 outline 为空或非列表"⟩]) ++
    (if ok_pp then []
     else [⟨"LOW_CONFIDENCE_PROFILE", "ERROR",
            "项目画像置信度不足（decision=block_and_review），不允许继续生成"⟩]) ++
    rfBlock.2.1
  let suggested_actions : List String :=
    (if ok_topic then [] else ["补充 topic，例如：’合肥市政排水工程施工组织设计（雨污分流）’"]) ++
    (if ok_outline then []
     else ["补充 outline，例如：[’工程概况’,’施工准备’,’施工方法’,’质量安全’]"]) ++
    (if ok_pp then []
     else ["补充项目关键信息（工程类型/地区/规模/关键词），或在请求中显式提供 project_type",
           "将 topic 替换为包含明确专业关键词的描述（如：’装修’/’幕墙’/’市政排水’/’市政道路’/’机电’等）"]) ++
    rfBlock.2.2
  let passed := details.all (fun d => d.passed)
  { passed := passed
    rule_path := env.rule_path
    rule_sha256 := rule_sha256
    input_sha256 := ProjectProfile.stable_sha256 (Json.obj payload)
    project_profile_decision := pp_decision
    reasons := reasons
    suggested_actions := suggested_actions
    details := details }

/-- The recorded outcome of the named check (`none` when the evaluation
has no such check). -/
def checkPassed (ev : Evaluation) (cid : String) : Option Bool :=
  (ev.details.find? (fun dd => dd.check_id = cid)).map (fun dd => dd.passed)

end Precheck

/-! ## Region upgrade resolver (`region_upgrade_service.py`)

`resolve_region_upgrade(payload, project_profile)` resolves a region key
and the corresponding rule file from the active configuration.  `KgCfg`
models the `region_upgrade_rules` table of `kg_config.json` and the active
base directory `kg_loader` prefixes onto configured file names.  The
dynamic meta fields (`name`, `version`, ...) the source copies out of a
parsed rule file, and the `repr(e)` detail inside the parse error message,
are not modelled (no claim depends on them). -/

namespace RegionUpgrade

open KgLoader

/-- `_pick_default_region_key`: prefer `anhui_hefei_general`; else the
smallest key; `None` when the table is empty. -/
def pick_default_region_key (cfg : KgCfg) : Option String :=
  let keys := cfg.region_upgrade_rules.map Prod.fst
  if keys.isEmpty then none
  else if keys.contains "anhui_hefei_general" then some "anhui_hefei_general"
  else (pySortStrings keys).head?

/-- The payload fields recognized by `_extract_region_key`. -/
def payload_region_keys : List String :=
  ["region_key", "region_upgrade_key", "region", "region_code", "regionCode"]

/-- The project-profile key paths probed by `_extract_region_key`. -/
def profile_region_paths : List (List String) :=
  [["region_key"], ["region", "key"], ["region", "region_key"],
   ["output_profile", "region_key"], ["output_profile", "region", "key"]]

/-- Walk a key path through nested dicts (a missing key or a non-dict stop
yields `null`, which the string test below rejects, matching the source's
`ok` flag). -/
def walkPath (v : Json) : List String → Json
  | [] => v
  | k :: ks => walkPath (v.get k) ks

/-- `_extract_region_key(payload, project_profile, cfg)`. -/
def extract_region_key (payload project_profile : List (String × Json))
    (cfg : KgCfg) : Option String :=
  let fromPayload := payload_region_keys.findSome? (fun k =>
    match (Json.obj payload).get k with
    | .str s => if pyStrip s ≠ "" then some (pyStrip s) else none
    | .obj kvs =>
      match (Json.obj kvs).get "key" with
      | .str s => if pyStrip s ≠ "" then some (pyStrip s) else none
      | _ => none
    | _ => none)
  match fromPayload with
  | some r => some r
  | none =>
    let fromProfile := profile_region_paths.findSome? (fun ps =>
      match walkPath (Json.obj project_profile) ps with
      | .str s => if pyStrip s ≠ "" then some (pyStrip s) else none
      | _ => none)
    match fromProfile with
    | some r => some r
    | none => pick_default_region_key cfg

/-- The RegionUpgrade artifact (`ts` is a timestamp and not modelled). -/
structure RegionOut where
  applied : Bool
  region_key : Option String
  rule_path : Option String
  rule_sha256 : Option String
  top_level_keys : List String
  project_profile_decision : Json
  input_sha256 : Json
  errors : List String

/-- `resolve_region_upgrade(payload, project_profile)`. -/
def resolve_region_upgrade (payload project_profile : List (String × Json))
    (cfg : KgCfg) (fs : FileSys) : RegionOut :=
  let region_key := extract_region_key payload project_profile cfg
  let out : RegionOut :=
    { applied := false
      region_key := region_key
      rule_path := none
      rule_sha256 := none
      top_level_keys := []
      project_profile_decision := (Json.obj project_profile).get "decision"
      input_sha256 := (Json.obj project_profile).get "input_sha256"
      errors := [] }
  match region_key with
  | none =>
    { out with errors :=
        ["region_key not provided and no default configured in kg_config.json"] }
  | some rk =>
    match get_region_upgrade_rule rk cfg with
    | none =>
      { out with errors := ["no region_upgrade_rule configured for region_key=" ++ rk] }
    | some rp =>
      let out := { out with rule_path := some rp }
      if !fs.exists? rp then
        { out with errors := ["rule file not found: " ++ rp] }
      else
        let out := { out with rule_sha256 := some (sha256Hex (fs.read rp)) }
        match fs.loadJson rp with
        | none => { out with errors := ["json parse error"] }
        | some (Json.obj kvs) =>
          { out with applied := true
                     top_level_keys := (pySortStrings (kvs.map Prod.fst)).take 50 }
        | some _ => { out with applied := true }

end RegionUpgrade

/-! ## Domain resolver (`kg_context_service.py`)

`build_kg_context` stamps `input_sha256` from the *default*-separator
serialization of the payload (`json.dumps(payload or {}, ensure_ascii=False,
sort_keys=True)`, lines 316–320) and resolves a domain key over the domain
map.  The `_DOMAIN_HINTS` regular expressions are alternations of literals,
with three uses of `.*`, optional-whitespace (`\s?`) gaps and `\d+`; each is
compiled here to an equivalent string predicate (`re.IGNORECASE` =
ASCII case folding, which is all these patterns contain).  The `seen`
id-set of `_collect_domain_map_entries` only guards against shared
references, which JSON trees read from disk never have, so it is not
modelled. -/

namespace KGContext

/-- `input_sha256` of the KGContext artifact: default separators
`(", ", ": ")` (`payload or \x7b\x7d` equals `payload` for a dict, empty or
not, under this serialization). -/
def kg_input_sha256 (payload : List (String × Json)) : String :=
  sha256Hex (utf8Encode (dumpsDefault (Json.obj payload)))

/-- The separator class of `_coerce_keywords`' split regex
`[,，;；\s]+`. -/
def sepChar (c : Char) : Bool :=
  c = ',' || c = '，' || c = ';' || c = '；' || isWs c

/-- Split a char list on a separator class (pieces between runs, with
empties kept, as `re.split` on a `[...]+` class yields at the edges). -/
def splitChars (p : Char → Bool) : List Char → List Char → List String
  | [], acc => [⟨acc.reverse⟩]
  | c :: rest, acc =>
      if p c then ⟨acc.reverse⟩ :: splitChars p rest []
      else splitChars p rest (c :: acc)

/-- `_coerce_keywords`. -/
def coerce_keywords : Json → List String
  | .null => []
  | .arr xs => xs.filterMap (fun x =>
      match x with
      | .str s => if pyStrip s ≠ "" then some (pyStrip s) else none
      | _ => none)
  | .str s => (splitChars sepChar s.data []).filterMap (fun x =>
      if pyStrip x ≠ "" then some (pyStrip x) else none)
  | _ => []

/-- A domain-map entry is a JSON dict (its bindings). -/
abbrev Entry := List (String × Json)

mutual

/-- `_collect_domain_map_entries`' walk: gather every dict item of every
list bound to a `maps` key, in traversal order. -/
def collectMaps : Json → List Entry
  | .obj kvs =>
      (match (Json.obj kvs).get "maps" with
       | .arr xs => xs.filterMap (fun x => match x with | .obj m => some m | _ => none)
       | _ => []) ++ collectMapsKvs kvs
  | .arr xs => collectMapsList xs
  | _ => []

/-- Walk the items of a list. -/
def collectMapsList : List Json → List Entry
  | [] => []
  | x :: xs => collectMaps x ++ collectMapsList xs

/-- Walk the values of a dict. -/
def collectMapsKvs : List (String × Json) → List Entry
  | [] => []
  | kv :: kvs => collectMaps kv.2 ++ collectMapsKvs kvs

end

/-- Python `str(v)` (scalars exact; containers, never produced by the
falsy-guarded uses below, approximated by their JSON serialization). -/
def pyStr : Json → String := Precheck.pyShow

/-- The dedup signature `f"\x7bcn\x7d||\x7ben\x7d||\x7bkey\x7d"`. -/
def sigOf (m : Entry) : String :=
  let g := fun k => (Json.obj m).get k
  pyStr (Json.pyOr (g "cn_name") (Json.str "")) ++ "||" ++
  pyStr (Json.pyOr (g "en_name") (Json.pyOr (g "en_key") (Json.str ""))) ++ "||" ++
  pyStr (Json.pyOr (g "domain_key") (Json.pyOr (g "domain")
    (Json.pyOr (g "key") (Json.str ""))))

/-- `_collect_domain_map_entries`: walk, then dedup by signature
(first-occurrence position, last-occurrence value — Python dict update
semantics). -/
def collect_domain_map_entries (v : Json) : List Entry :=
  ((collectMaps v).foldl (fun acc m => upsert acc (sigOf m) m) []).map Prod.snd

/-- ASCII-lowercase a string (`re.IGNORECASE` folding for these
ASCII-only pattern letters). -/
def lowerStr (s : String) : String := ⟨s.data.map Char.toLower⟩

/-- Any of the literal alternatives occurs. -/
def containsAny (s : String) (lits : List String) : Bool :=
  lits.any (fun l => strContains s l)

/-- `a.*b`: an occurrence of `a` followed (anywhere later) by `b`. -/
def seqContains (a b : String) (s : String) : Bool := go a.data b.data s.data
where
  /-- Scan for a match position of `a`, then look for `b` in the rest. -/
  go (a b : List Char) : List Char → Bool
    | [] => false
    | c :: rest =>
        (a.isPrefixOf (c :: rest) && listContains ((c :: rest).drop a.length) b) ||
        go a b rest

/-- After an optional single whitespace character, `p` holds. -/
def afterOptWs (p : List Char → Bool) (cs : List Char) : Bool :=
  p cs || (match cs with | c :: rest => isWs c && p rest | [] => false)

/-- `lit\s?\d+` (on an already lowercased haystack): `lit`, an optional
whitespace, then a digit. -/
def litWsDigit (lit : String) (s : String) : Bool := go lit.data s.data
where
  /-- Scan for a position where the literal-then-digit shape matches. -/
  go (lit : List Char) : List Char → Bool
    | [] => false
    | c :: rest =>
        (lit.isPrefixOf (c :: rest) &&
          afterOptWs (fun r => match r with | d :: _ => d.isDigit | [] => false)
            ((c :: rest).drop lit.length)) ||
        go lit rest

/-- `lit1\s?lit2` (lowercased haystack): `lit1`, optional whitespace,
then `lit2`. -/
def litWsLit (lit1 lit2 : String) (s : String) : Bool := go lit1.data s.data
where
  /-- Scan for a position where the two-literal shape matches. -/
  go (l1 : List Char) : List Char → Bool
    | [] => false
    | c :: rest =>
        (l1.isPrefixOf (c :: rest) &&
          afterOptWs (fun r => lit2.data.isPrefixOf r) ((c :: rest).drop l1.length)) ||
        go l1 rest

/-- `_DOMAIN_HINTS`, each regex compiled to an equivalent predicate on the
stripped text `s` (with `t` its ASCII-lowercase for the case-insensitive
ASCII alternatives), paired with its domain key, in declaration order. -/
def domainHints : List ((String → Bool) × String) :=
  [(fun s => containsAny s ["装饰", "装修", "精装", "石材", "木饰面", "墙面工程", "吊顶"], "decoration"),
   (fun s => containsAny s ["房建", "房屋建筑", "主体", "结构", "混凝土", "钢筋", "模板", "砌体"], "building"),
   (fun s => seqContains "市政" "道路" s ||
      containsAny s ["道路工程", "路面", "路床", "沥青", "水稳", "交通导改"], "municipal_road"),
   (fun s => containsAny s ["排水", "雨水", "污水", "给排水", "管道", "检查井", "沟槽"], "municipal_drain"),
   (fun s => containsAny s ["机电", "暖通", "空调", "电气", "消防", "弱电", "桥架", "管线综合", "安装工程"] ||
      strContains (lowerStr s) "mep", "mep"),
   (fun s => containsAny s ["公路", "高速", "路基", "路面"] || strContains (lowerStr s) "jtg", "highway"),
   (fun s => containsAny s ["水利", "堤", "闸", "坝", "泵站"] || litWsDigit "sl" (lowerStr s), "water_resources"),
   (fun s => containsAny s ["河道", "清淤", "疏浚", "护坡", "格宾", "生态"], "river_improvement"),
   (fun s => containsAny s ["电力", "输变电", "变电", "光伏", "风电", "能源"] ||
      strContains (lowerStr s) "dl/t" || strContains (lowerStr s) "nb/t", "power_energy"),
   (fun s => seqContains "工业" "管道" s || containsAny s ["工艺管道", "压力试验", "焊接"] ||
      litWsLit "gb" "50316" (lowerStr s), "industrial_pipeline"),
   (fun s => containsAny s ["铁路", "轨道", "无砟"] || litWsDigit "tb" (lowerStr s), "railway"),
   (fun s => containsAny s ["室外", "附属", "园建", "景观", "广场", "铺装", "园林"], "exterior")]

/-- `_fallback_domain_key`. -/
def fallback_domain_key : Option String → Option String
  | none => none
  | some t =>
      if pyStrip t = "" then none
      else domainHints.findSome? (fun h => if h.1 (pyStrip t) then some h.2 else none)

/-- The key chain of `_extract_domain_key_from_map`. -/
def extract_domain_key_from_map (m : Entry) : Option String :=
  let outer := ["domain_key", "domain", "en_key", "en_name", "key", "slug", "code", "id"].findSome?
    (fun k => match (Json.obj m).get k with
      | .str s => if pyStrip s ≠ "" then some (pyStrip s) else none
      | _ => none)
  match outer with
  | some r => some r
  | none =>
    match (Json.obj m).get "domain" with
    | .obj dom =>
        ["domain_key", "en_key", "en_name", "key", "slug", "code", "id"].findSome?
          (fun k => match (Json.obj dom).get k with
            | .str s => if pyStrip s ≠ "" then some (pyStrip s) else none
            | _ => none)
    | _ => none

/-- The fixed domain-indicative vocabulary of `_score_map_entry`. -/
def scoreWords : List String :=
  ["装饰", "装修", "房建", "市政", "道路", "排水", "雨水", "污水", "机电", "暖通",
   "电气", "水利", "河道", "电力", "光伏", "工业", "管道", "铁路", "公路", "景观", "室外"]

/-- `_score_map_entry(m, query)`. -/
def score_map_entry (m : Entry) (query : String) : Nat :=
  if query = "" then 0
  else
    let q := pyStrip query
    if q = "" then 0
    else
      let cn := Json.pyOr ((Json.obj m).get "cn_name")
        (Json.pyOr ((Json.obj m).get "name") (Json.pyOr ((Json.obj m).get "title") (Json.str "")))
      let desc := Json.pyOr ((Json.obj m).get "desc")
        (Json.pyOr ((Json.obj m).get "description") (Json.str ""))
      let kws := coerce_keywords
        (Json.pyOr ((Json.obj m).get "keywords") ((Json.obj m).get "keyword"))
      let sCn :=
        if cn.isStr && pyStrip cn.asStr != "" then
          (if strContains q cn.asStr then 12 else 0) +
          (if strContains cn.asStr q then 8 else 0)
        else 0
      let sKw := 3 * (kws.filter (fun kw => kw ≠ "" && strContains q kw)).length
      let sWords := (scoreWords.map (fun word =>
        if strContains q word then
          (if cn.isStr && strContains cn.asStr word then 2 else 0) +
          (if desc.isStr && strContains desc.asStr word then 1 else 0)
        else 0)).sum
      sCn + sKw + sWords

/-- The `domain_resolution` block of the KGContext artifact. -/
structure DomainRes where
  domain_key : Option String
  matched_cn_name : Option String
  method : String
  score : Nat
  query : String
  candidate_count : Nat
  matched_preview : Option (List (String × Json))

/-- The keys kept in `matched_preview`. -/
def keep_keys : List String :=
  ["cn_name", "en_name", "domain_key", "domain", "key", "slug", "code", "id", "keywords", "desc"]

/-- The best-entry loop of `_resolve_domain` (strictly-greater updates,
ties keep the earlier entry). -/
def pickBest (query : String) (entries : List Entry) : Option Entry × Nat :=
  entries.foldl (fun acc m =>
    let sc := score_map_entry m query
    if sc > acc.2 then (some m, sc) else acc) (none, 0)

/-- The query of `_resolve_domain`: the stripped, non-blank project type
and topic joined by `" | "`. -/
def build_query (project_type_cn topic : Option String) : String :=
  String.intercalate " | " (([project_type_cn, topic].filterMap id).filterMap
    (fun x => if pyStrip x ≠ "" then some (pyStrip x) else none))

/-- The maximal entry score over a catalogue (0 when empty). -/
def maxScore (query : String) (entries : List Entry) : Nat :=
  (entries.map (fun m => score_map_entry m query)).foldr max 0

/-- `_resolve_domain(domain_map_obj, project_type_cn, topic)` after entry
collection (`_resolve_domain` proper applies this to
`collect_domain_map_entries domain_map_obj`). -/
def resolve_domain_entries (entries : List Entry)
    (project_type_cn topic : Option String) : DomainRes :=
  let query := build_query project_type_cn topic
  let res : DomainRes :=
    { domain_key := none, matched_cn_name := none, method := "none", score := 0,
      query := query, candidate_count := entries.length, matched_preview := none }
  let best := if query ≠ "" then pickBest query entries else (none, 0)
  match best with
  | (some b, best_score) =>
    if (Json.obj b).truthy && best_score > 0 then
      let cn := (Json.obj b).get "cn_name"
      let matched_cn_name := match cn with | .str s => some s | _ => none
      let res := { res with matched_cn_name := matched_cn_name, score := best_score }
      let preview := keep_keys.filterMap (fun k =>
        (b.find? (fun kv => kv.1 = k)).map (fun kv => (k, kv.2)))
      let res := { res with matched_preview := if preview.isEmpty then none else some preview }
      match extract_domain_key_from_map b with
      | some dk => { res with domain_key := some dk, method := "domain_map" }
      | none =>
        match fallback_domain_key (some (matched_cn_name.getD "")) with
        | some d => { res with domain_key := some d, method := "domain_map+cn_fallback" }
        | none =>
          match fallback_domain_key
              (some (pyStr (Json.pyOr ((Json.obj b).get "desc") (Json.str "")))) with
          | some d => { res with domain_key := some d, method := "domain_map+cn_fallback" }
          | none => { res with method := "domain_map_unkeyed" }
    else
      match fallback_domain_key project_type_cn with
      | some fb => { res with domain_key := some fb, method := "fallback", score := 0 }
      | none =>
        match fallback_domain_key topic with
        | some fb => { res with domain_key := some fb, method := "fallback", score := 0 }
        | none => res
  | (none, _) =>
    match fallback_domain_key project_type_cn with
    | some fb => { res with domain_key := some fb, method := "fallback", score := 0 }
    | none =>
      match fallback_domain_key topic with
      | some fb => { res with domain_key := some fb, method := "fallback", score := 0 }
      | none => res

/-- `_resolve_domain` on a raw domain-map object. -/
def resolve_domain (domain_map_obj : Json) (project_type_cn topic : Option String) :
    DomainRes :=
  resolve_domain_entries (collect_domain_map_entries domain_map_obj) project_type_cn topic

end KGContext

/-! ## Audit & replay validator (`audit_service.py`)

`build_audit_report` aggregates the six `build/` artifacts and the rule
files of the current configuration.  Modelled here: the
`replay` block (lines 282–336: the `missing` list and
`replayable = (len(missing) == 0)`), and the `project_profile_rule_file`
consistency check (its `sha256_match` value), which feeds `checks` but not
`replay`.  An exception inside a getter (`none` here) appends an error
string to `missing` exactly as the source's `except` blocks do; the
`repr(e)` text is not modelled. -/

namespace Audit

open KgLoader

/-- The six artifacts of one run, in the dict order of the source. -/
def artifact_names : List String :=
  ["project_profile", "kg_context", "region_upgrade", "precheck_guard", "compose", "retrieve"]

/-- `BUILD_DIR / (name + ".json")`. -/
def artifact_path (n : String) : String := "build/" ++ n ++ ".json"

/-- The region key used for the region-rule existence check: the
`region_key` of the parsed region artifact when truthy (a non-string value
can never match the string-keyed rule table, hence `none`), else the
smallest configured key. -/
def audit_region_key (cfg : KgCfg) (fs : FileSys) : Option String :=
  let rk : Json :=
    match fs.safeJson (artifact_path "region_upgrade") with
    | some (Json.obj kvs) => (Json.obj kvs).get "region_key"
    | _ => Json.null
  if rk.truthy then
    match rk with
    | .str s => some s
    | _ => none
  else (pySortStrings (cfg.region_upgrade_rules.map Prod.fst)).head?

/-- The `missing` list of the replay block, in the source's append order:
missing artifacts, then the classifier / guard / region / domain-map rule
files, then the base packs. -/
def audit_missing (cfg : KgCfg) (fs : FileSys) : List String :=
  (artifact_names.filterMap (fun n =>
    if fs.exists? (artifact_path n) then none else some (artifact_path n))) ++
  (match get_project_profile_rule_path cfg with
   | some p => if fs.exists? p then [] else [p]
   | none => ["project_profile_rule_error"]) ++
  (match get_precheck_guard_rule_path cfg with
   | some p => if fs.exists? p then [] else [p]
   | none => ["precheck_guard_rule_error"]) ++
  (match audit_region_key cfg fs with
   | none => []
   | some k =>
     match get_region_upgrade_rule k cfg with
     | none => []
     | some rp => if fs.exists? rp then [] else [rp]) ++
  (match get_domain_map_path cfg with
   | some p => if fs.exists? p then [] else [p]
   | none => ["domain_map_error"]) ++
  ((get_base_pack_paths cfg).filter (fun p => !fs.exists? p))

/-- The `replay` block of the AuditReport. -/
structure Replay where
  replayable : Bool
  missing : List String
deriving DecidableEq

/-- `build_audit_report`'s replay verdict:
`replayable = (len(missing) == 0)`. -/
def build_audit_replay (cfg : KgCfg) (fs : FileSys) : Replay :=
  let missing := audit_missing cfg fs
  { replayable := missing.isEmpty, missing := missing }

/-- The `sha256_match` value of the `project_profile_rule_file` check: the
recomputed rule-file hash against the `rule_sha256` stamped in the
artifact; `None` unless both are available. -/
def project_profile_rule_sha_match (cfg : KgCfg) (fs : FileSys) : Option Bool :=
  match get_project_profile_rule_path cfg with
  | none => none
  | some p =>
    let sha : Option String := if fs.exists? p then some (sha256Hex (fs.read p)) else none
    let expected : Json :=
      match fs.safeJson (artifact_path "project_profile") with
      | some (Json.obj kvs) => (Json.obj kvs).get "rule_sha256"
      | _ => Json.null
    match sha, expected with
    | some h, .str e => some (h == e)
    | _, _ => none

/-- The file paths whose existence the replay block checks, given that the
three single-file getters resolve: classifier rule, guard rule, the region
rule (when one is determined), the domain map, and every base pack. -/
def audit_rule_paths (cfg : KgCfg) (fs : FileSys) : List String :=
  (match get_project_profile_rule_path cfg with | some p => [p] | none => []) ++
  (match get_precheck_guard_rule_path cfg with | some p => [p] | none => []) ++
  (match audit_region_key cfg fs with
   | none => []
   | some k => match get_region_upgrade_rule k cfg with | some rp => [rp] | none => []) ++
  (match get_domain_map_path cfg with | some p => [p] | none => []) ++
  get_base_pack_paths cfg

/-- A configuration on which the three single-file getters resolve. -/
def KgCfg.resolved (cfg : KgCfg) : Bool :=
  (get_project_profile_rule_path cfg).isSome &&
  (get_precheck_guard_rule_path cfg).isSome &&
  (get_domain_map_path cfg).isSome

end Audit

/-! ## Pack manager (`scripts/kg_pack.py`)

The pack manager works on the repository root: paths here are root-relative
strings (the root itself is `""`), `CONFIG_PATH` is `kg_config.json` and
`PACKS_DIR` is `kg_packs`.  A command that raises `SystemExit` (or an
uncaught exception, which equally aborts the command with a nonzero exit)
is modelled as `Option.none`.  Commands re-read `kg_config.json` on entry;
they are given the parse result of the current file (`raw : Option Json`,
`none` = missing file or invalid JSON). -/

namespace KgPack

/-- `SKIP_KEYS`: config keys whose subtrees `_collect_existing_relpaths`
does not walk. -/
def SKIP_KEYS : List String :=
  ["packs", "active_pack", "_active_pack_prev", "active_pack_history"]

/-- `_load_cfg` after the file is read and parsed: the config must be a
dict; a missing/`None` `packs` becomes `\x7b\x7d`, a non-dict `packs`
aborts; `active_pack` defaults to `"default"` when the key is absent. -/
def load_cfg : Option Json → Option Json
  | some (Json.obj kvs) =>
    (match (Json.obj kvs).get "packs" with
     | .null => some (upsert kvs "packs" (Json.obj []))
     | .obj _ => some kvs
     | _ => none).map (fun kvs1 =>
      Json.obj (if hasKey kvs1 "active_pack" then kvs1
                else upsert kvs1 "active_pack" (Json.str "default")))
  | _ => none

/-- Python `str(v)` (scalars exact, containers approximated — the config
values this is applied to are strings). -/
def pyStrJ : Json → String := Precheck.pyShow

/-- The `pack_id or cfg.get("active_pack") or "default"` resolution
(`none` = a truthy non-string active id, which matches no string key and
crashes the path join — a failed command either way). -/
def effective_pack_id (cfg : Json) (pid : Option String) : Option String :=
  let active := Json.pyOr (cfg.get "active_pack") (Json.str "default")
  let fromActive : Option String := match active with | .str s => some s | _ => none
  match pid with
  | some p => if p = "" then fromActive else some p
  | none => fromActive

/-- `_pack_cfg`: the registered pack dict, `\x7b\x7d` when unregistered,
abort (`none`) when registered as a non-dict. -/
def pack_cfg (cfg : Json) (pid : Option String) : Option (List (String × Json)) :=
  let v := match pid with
    | some p => (cfg.get "packs").get p
    | none => Json.null
  match v with
  | .null => some []
  | .obj kv => some kv
  | _ => none

/-- `_pack_base_dir`: the pack's base directory
(`base_dir or base_path or root or "."`, `"."` being the repository root),
aborting when it does not exist on disk. -/
def pack_base_dir (cfg : Json) (pid : Option String) (d : FileSys) : Option String :=
  let pidE := effective_pack_id cfg pid
  (pack_cfg cfg pidE).bind (fun pcfg =>
    let bd := Json.pyOr ((Json.obj pcfg).get "base_dir")
      (Json.pyOr ((Json.obj pcfg).get "base_path")
        (Json.pyOr ((Json.obj pcfg).get "root") (Json.str ".")))
    let rel := pyStrJ bd
    let base := if rel = "." then "" else rel
    if d.existsAny? base then some base else none)

/-- `_is_probably_path`. -/
def is_probably_path (s0 : String) : Bool :=
  let s := pyStrip s0
  if s = "" then false
  else if "http://".data.isPrefixOf s.data || "https://".data.isPrefixOf s.data then false
  else if strContains s "/" || strContains s "\\" then true
  else [".json", ".yaml", ".yml", ".txt", ".md"].any (fun e => e.data.isSuffixOf s.data)

/-- `add_candidate` of `_collect_existing_relpaths`: normalize a candidate
string to a base-relative path, keeping it only when it exists under the
base directory (an absolute path — the root being `/` — is accepted only
when it lies under the base). -/
def add_candidate (base : String) (d : FileSys) (val : String) : Option String :=
  let v := pyStrip val
  if !is_probably_path v then none
  else
    let rel? : Option String :=
      if "/".data.isPrefixOf v.data then
        let vr : String := ⟨v.data.drop 1⟩
        if base = "" then some vr
        else if (base ++ "/").data.isPrefixOf vr.data then
          some ⟨vr.data.drop (base.length + 1)⟩
        else none
      else some v
    rel?.bind (fun rel =>
      if d.existsAny? (joinPath base rel) then some rel else none)

mutual

/-- The `walk` of `_collect_existing_relpaths` over a value. -/
def walkCollect (base : String) (d : FileSys) : Json → List String
  | .str s => match add_candidate base d s with | some r => [r] | none => []
  | .arr xs => walkCollectList base d xs
  | .obj kvs => walkCollectKvs base d kvs
  | _ => []

/-- Walk list items (no keys to skip). -/
def walkCollectList (base : String) (d : FileSys) : List Json → List String
  | [] => []
  | x :: xs => walkCollect base d x ++ walkCollectList base d xs

/-- Walk dict values, skipping `SKIP_KEYS`. -/
def walkCollectKvs (base : String) (d : FileSys) : List (String × Json) → List String
  | [] => []
  | kv :: kvs =>
      (if SKIP_KEYS.contains kv.1 then [] else walkCollect base d kv.2) ++
      walkCollectKvs base d kvs

end

/-- `_collect_existing_relpaths`: the found set, sorted. -/
def collect_existing_relpaths (cfg : Json) (base : String) (d : FileSys) : List String :=
  pySortStrings (dedup (match cfg with
    | .obj kvs => walkCollectKvs base d kvs
    | _ => []))

/-- The problems one `files[]` manifest entry contributes in
`_validate_pack_by_manifest`.  A truthy non-string `path` reaches
`pack_dir / rel` outside every `try` and raises an uncaught `TypeError`,
aborting the whole command: `none`.  A truthy non-string `sha256` survives
(`actual != sha` is `True` between a `str` and a non-`str`) and reports a
mismatch. -/
def entry_problems (d : FileSys) (base : String) (it : Json) : Option (List String) :=
  match it with
  | .obj kv =>
    let rel := (Json.obj kv).get "path"
    let sha := (Json.obj kv).get "sha256"
    if !rel.truthy || !sha.truthy then
      some ["manifest.json: files[] missing path/sha256"]
    else
      match rel with
      | .str r =>
        some (if !d.exists? (joinPath base r) then ["missing file: " ++ r]
          else
            (match sha with
             | .str s =>
               if sha256Hex (d.read (joinPath base r)) ≠ s then
                 ["sha256 mismatch: " ++ r]
               else []
             | _ => ["sha256 mismatch: " ++ r]))
      | _ => none
  | _ => some ["manifest.json: files[] item is not object"]

/-- The problems of the whole `files[]` loop, first crash aborting. -/
def entries_problems (d : FileSys) (base : String) : List Json → Option (List String)
  | [] => some []
  | x :: xs =>
    (entry_problems d base x).bind (fun p =>
      (entries_problems d base xs).map (fun ps => p ++ ps))

/-- `_validate_pack_by_manifest(pack_dir)`: `some (ok, problems)`.  A
manifest whose JSON is not a dict hits the unguarded `man.get` and raises
an uncaught `AttributeError`, aborting the command: `none`.  A `files`
value that is not a non-empty list (the source checks
`isinstance(files, list)`) is the `files missing or empty` problem. -/
def validate_pack_by_manifest (d : FileSys) (base : String) :
    Option (Bool × List String) :=
  if !d.exists? (joinPath base "manifest.json") then
    some (false, ["manifest.json missing: " ++ joinPath base "manifest.json"])
  else
    match d.loadJson (joinPath base "manifest.json") with
    | none => some (false, ["manifest.json invalid JSON"])
    | some man =>
      match man with
      | .obj kvs =>
        (match (Json.obj kvs).get "files" with
         | .arr (x :: xs) =>
           (entries_problems d base (x :: xs)).map (fun ps => (ps.isEmpty, ps))
         | _ => some (false, ["manifest.json: files missing or empty"]))
      | _ => none

/-- A fully valid `files[]` manifest entry: a dict with truthy string
`path` and truthy string `sha256`, whose file exists under the base
directory with the recorded hash (exactly the non-crashing entries that
contribute no problem above). -/
def entry_ok (d : FileSys) (base : String) (it : Json) : Bool :=
  match it with
  | .obj kv =>
    match (Json.obj kv).get "path", (Json.obj kv).get "sha256" with
    | .str r, .str s =>
        r != "" && s != "" && d.exists? (joinPath base r) &&
          (sha256Hex (d.read (joinPath base r)) == s)
    | _, _ => false
  | _ => false

/-- A fully valid manifest: it parses, its `files` list is a non-empty
array, and every entry is fully valid. -/
def manifest_ok (d : FileSys) (base : String) : Bool :=
  match d.loadJson (joinPath base "manifest.json") with
  | some man =>
    (match man.get "files" with
     | .arr (x :: xs) => (x :: xs).all (entry_ok d base)
     | _ => false)
  | none => false

/-- The claim's failure condition, following the spec's words: a
manifest-listed file (an entry carrying a real path and hash) that is
missing on disk or whose recomputed hash differs from the recorded one. -/
def listed_file_bad (d : FileSys) (base : String) (it : Json) : Bool :=
  match it with
  | .obj kv =>
    match (Json.obj kv).get "path", (Json.obj kv).get "sha256" with
    | .str r, .str s =>
        r != "" && s != "" &&
          (!d.exists? (joinPath base r) || (sha256Hex (d.read (joinPath base r)) != s))
    | _, _ => false
  | _ => false

/-- The claim's failure condition over the whole manifest: at least one
manifest-listed file is missing or hash-mismatched. -/
def some_listed_file_bad (d : FileSys) (base : String) : Bool :=
  match d.loadJson (joinPath base "manifest.json") with
  | some man =>
    (match man.get "files" with
     | .arr xs => xs.any (listed_file_bad d base)
     | _ => false)
  | none => false

/-- The base-directory resolution of `cmd_validate`: an unregistered pack
is guessed under `kg_packs/` (aborting when the directory is absent); a
registered pack resolves through `_pack_base_dir`. -/
def validate_base_dir (cfg : Json) (d : FileSys) (pid : String) : Option String :=
  let registered := match cfg.get "packs" with
    | .obj kvs => hasKey kvs pid
    | _ => false
  if !registered then
    let guess := joinPath "kg_packs" pid
    if d.existsAny? guess then some guess else none
  else pack_base_dir cfg (some pid) d

/-- `cmd_validate`: `some 0` = success, `some 2` = validation failure,
`none` = abort (`SystemExit`, or an uncaught exception inside the manifest
check). -/
def cmd_validate (raw : Option Json) (d : FileSys) (pack_id : Option String) :
    Option Nat :=
  (load_cfg raw).bind (fun cfg =>
    (effective_pack_id cfg pack_id).bind (fun pid =>
      (validate_base_dir cfg d pid).bind (fun base =>
        let rels := collect_existing_relpaths cfg base d
        let missing_cfg := rels.filter (fun r => !d.existsAny? (joinPath base r))
        if !missing_cfg.isEmpty then some 2
        else if d.exists? (joinPath base "manifest.json") then
          match validate_pack_by_manifest d base with
          | none => none
          | some vp => some (if vp.1 then 0 else 2)
        else some 0)))

/-- `_sanitize_pack_id`'s pattern `[A-Za-z0-9][A-Za-z0-9._-]\x7b0,63\x7d`. -/
def sanitize_pack_id_ok (s : String) : Bool :=
  match s.data with
  | [] => false
  | c :: rest =>
      (c.isAlpha || c.isDigit) &&
      rest.all (fun x => x.isAlpha || x.isDigit || x = '.' || x = '_' || x = '-') &&
      rest.length ≤ 63

/-- The last `n` elements (`hist[-20:]`). -/
def lastN {α : Type} (n : Nat) (l : List α) : List α := l.drop (l.length - n)

/-- `cmd_activate` without `--smoke`: the configuration dict written on
success (`_write_cfg` then serializes it with `indent=2`); `none` = abort.
The inner `cmd_validate` call re-reads the on-disk configuration, so an
auto-registration (which at that point is only in memory) is not visible
to it. -/
def cmd_activate (raw : Option Json) (d : FileSys) (pid : String) (now : String) :
    Option Json :=
  (load_cfg raw).bind (fun cfg =>
    if !sanitize_pack_id_ok pid then none
    else
      let packsKvs := match cfg.get "packs" with | .obj kvs => kvs | _ => []
      let cfgKvs := match cfg with | .obj kvs => kvs | _ => []
      let reg? : Option (List (String × Json)) :=
        if hasKey packsKvs pid then some cfgKvs
        else if !d.existsAny? ("kg_packs/" ++ pid) then none
        else
          let manifestPath := "kg_packs/" ++ pid ++ "/manifest.json"
          let newPack := Json.obj
            [("base_dir", Json.str ("kg_packs/" ++ pid)),
             ("pack_version", Json.str pid),
             ("schema_version", Json.num 1),
             ("created_at", Json.str now),
             ("manifest", Json.str (if d.exists? manifestPath then manifestPath else ""))]
          some (upsert cfgKvs "packs" (Json.obj (upsert packsKvs pid newPack)))
      reg?.bind (fun kvs0 =>
        match cmd_validate raw d (some pid) with
        | some 0 =>
          let prev : Json :=
            ((kvs0.find? (fun kv => kv.1 = "active_pack")).map Prod.snd).getD
              (Json.str "default")
          let kvs1 := upsert kvs0 "_active_pack_prev" prev
          let hist := match (Json.obj kvs1).get "active_pack_history" with
            | .arr xs => xs
            | _ => []
          let entry := Json.obj [("from", prev), ("to", Json.str pid), ("at", Json.str now)]
          let kvs2 := upsert kvs1 "active_pack_history" (Json.arr (lastN 20 (hist ++ [entry])))
          some (Json.obj (upsert kvs2 "active_pack" (Json.str pid)))
        | _ => none))

/-- `cmd_rollback` (no `--smoke`): resolve the target pack — explicit
`--to`, else the ledger's `_active_pack_prev` (abort when falsy; a truthy
non-string aborts inside `_sanitize_pack_id`) — then re-activate it. -/
def cmd_rollback (raw : Option Json) (d : FileSys) (to_pack : Option String)
    (now : String) : Option Json :=
  (load_cfg raw).bind (fun cfg =>
    let target : Option String :=
      match to_pack with
      | some t => if t = "" then
          (match cfg.get "_active_pack_prev" with
           | .str s => if s = "" then none else some s
           | _ => none)
        else some t
      | none =>
        match cfg.get "_active_pack_prev" with
        | .str s => if s = "" then none else some s
        | _ => none
    target.bind (fun t => cmd_activate raw d t now))

/-- `activate` immediately followed by `rollback` with no target: the
rollback re-reads the configuration just written by the activation
(`json.loads ∘ json.dumps` being the identity on JSON dicts). -/
def activate_then_rollback (raw : Option Json) (d : FileSys) (pid : String)
    (now1 now2 : String) : Option Json :=
  (cmd_activate raw d pid now1).bind (fun cfg1 => cmd_rollback (some cfg1) d none now2)

/-- Indentation spaces. -/
def spaces (n : Nat) : String := ⟨List.replicate n ' '⟩

mutual

/-- `json.dumps(cfg, ensure_ascii=False, indent=2)`, at indentation level
`ind`: multi-line containers, two-space nesting, `", "`-free item breaks
(`",\n" + indent`), `": "` after keys, insertion order (no `sort_keys`). -/
def dumpsInd : Nat → Json → String
  | _, .arr [] => "[]"
  | ind, .arr (x :: xs) =>
      "[\n" ++ String.intercalate ",\n" (dumpsIndList (ind + 2) (x :: xs)) ++
      "\n" ++ spaces ind ++ "]"
  | _, .obj [] => "\x7b\x7d"
  | ind, .obj (kv :: kvs) =>
      "\x7b\n" ++ String.intercalate ",\n" (dumpsIndKvs (ind + 2) (kv :: kvs)) ++
      "\n" ++ spaces ind ++ "\x7d"
  | _, v => dumpScalar v

/-- Indented array items. -/
def dumpsIndList (ind : Nat) : List Json → List String
  | [] => []
  | x :: xs => (spaces ind ++ dumpsInd ind x) :: dumpsIndList ind xs

/-- Indented object bindings. -/
def dumpsIndKvs (ind : Nat) : List (String × Json) → List String
  | [] => []
  | kv :: kvs =>
      (spaces ind ++ dumpStr kv.1 ++ ": " ++ dumpsInd ind kv.2) :: dumpsIndKvs ind kvs

end

/-- The file content `_write_cfg` produces. -/
def dumpsIndent2 (v : Json) : String := dumpsInd 0 v

/-- A file-system operation, for tracing `_write_cfg`'s effects.
`write` is `Path.write_text`: an in-place truncate-and-write of the named
file. -/
inductive FsOp where
  | read (path : String)
  | write (path : String) (content : String)
  | rename (src dst : String)
deriving DecidableEq

/-- Is this operation a rename? -/
def FsOp.isRename : FsOp → Bool
  | .rename _ _ => true
  | _ => false

/-- The operation trace of `_write_cfg(cfg, backup=...)`: read the old
content when the file exists, write the timestamped backup when requested,
then write `kg_config.json` itself directly. -/
def write_cfg_ops (oldRaw : Option String) (cfg : Json) (backup : Bool) (ts : String) :
    List FsOp :=
  (match oldRaw with | some _ => [FsOp.read "kg_config.json"] | none => []) ++
  (if backup then
    [FsOp.write ("kg_config.json.bak." ++ ts) (oldRaw.getD "\x7b\x7d")]
   else []) ++
  [FsOp.write "kg_config.json" (dumpsIndent2 cfg)]

end KgPack

/-! ## Concrete pack-validation fixtures -/

/-- A configuration registering pack `p3` with base `kg_packs/p3`
(already in `_load_cfg` normal form). -/
def c5cfg : Json :=
  Json.obj [("active_pack", Json.str "p3"),
            ("packs", Json.obj [("p3", Json.obj [("base_dir", Json.str "kg_packs/p3")])])]

/-- A pack directory whose manifest parses but lists no files. -/
def c5emptyFs : FileSys :=
  { files := [("kg_packs/p3/manifest.json", [1])]
    parsed := [("kg_packs/p3/manifest.json", some (Json.obj [("files", Json.arr [])]))]
    dirs := ["kg_packs/p3"] }

/-- A pack directory whose manifest lists a file absent on disk. -/
def c5badFs : FileSys :=
  { files := [("kg_packs/p3/manifest.json", [1])]
    parsed := [("kg_packs/p3/manifest.json",
      some (Json.obj [("files", Json.arr
        [Json.obj [("path", Json.str "a.json"), ("sha256", Json.str "00")]])]))]
    dirs := ["kg_packs/p3"] }

/-- A pack directory whose manifest parses to a non-dict (`[]`), on which
the source's unguarded `man.get` raises. -/
def c5crashFs : FileSys :=
  { files := [("kg_packs/p3/manifest.json", [1])]
    parsed := [("kg_packs/p3/manifest.json", some (Json.arr []))]
    dirs := ["kg_packs/p3"] }

/-! ## Concrete audit fixtures -/

/-- A fully resolved configuration for the audit service. -/
def c3cfg : KgLoader.KgCfg :=
  { base_dir := "kg"
    project_profile_rules := some "pp.json"
    precheck_guard_rules := some "pg.json"
    domain_map := some "dm.json"
    region_upgrade_rules := [("anhui_hefei_general", "region.json")]
    base_packs := ["Universal_Base_Pack.json"] }

/-- A file system with all six artifacts and every rule file present; the
stored `rule_sha256` (`"0000"`) does not match the rule file's recomputed
hash. -/
def c3fs : FileSys :=
  { files :=
      [("build/project_profile.json", [1]), ("build/kg_context.json", [1]),
       ("build/region_upgrade.json", [1]), ("build/precheck_guard.json", [1]),
       ("build/compose.json", [1]), ("build/retrieve.json", [1]),
       ("kg/pp.json", [10, 11]), ("kg/pg.json", [12]), ("kg/dm.json", [13]),
       ("kg/region.json", [14]), ("kg/Universal_Base_Pack.json", [15])]
    parsed :=
      [("build/project_profile.json",
        some (Json.obj [("rule_sha256", Json.str "0000")]))] }

/-! ## Concrete domain-map fixtures -/

/-- A domain-map entry whose `cn_name` (`装饰`) occurs in the query
`装饰装修`. -/
def c8entA : KGContext.Entry :=
  [("cn_name", Json.str "装饰"), ("domain_key", Json.str "decoration")]

/-- A second entry whose `cn_name` (`装修`) also occurs in `装饰装修`,
scoring the same as the first. -/
def c8entB : KGContext.Entry :=
  [("cn_name", Json.str "装修"), ("domain_key", Json.str "building")]

/-- An entry unrelated to the query `装饰装修` (score 0). -/
def c8entC : KGContext.Entry :=
  [("cn_name", Json.str "桥梁"), ("domain_key", Json.str "bridge")]

/-! ## Helper lemmas -/

/-- `Rat.floor` is the floor. -/
theorem ratFloor_eq_floor (x : ℚ) : Rat.floor x = ⌊x⌋ := by
  rw [Rat.floor_def', ← Rat.floor_def]

/-- Round-half-to-even never exceeds an integer bound on its argument. -/
theorem roundHalfEven_le {x : ℚ} {n : ℤ} (h : x ≤ n) : roundHalfEven x ≤ n := by
  unfold roundHalfEven
  rw [ratFloor_eq_floor]
  have hfl : (⌊x⌋ : ℚ) ≤ x := Int.floor_le x
  have hfn : ⌊x⌋ ≤ n := by
    have := Int.floor_le_floor (α := ℚ) h
    rwa [Int.floor_intCast] at this
  split
  · exact hfn
  · rename_i h2
    push_neg at h2
    split
    · rename_i h3
      have hx : (⌊x⌋ : ℚ) < (n : ℚ) := by linarith
      have := Int.cast_lt.mp hx
      omega
    · rename_i h3
      push_neg at h3
      have hx : (⌊x⌋ : ℚ) < (n : ℚ) := by linarith
      have := Int.cast_lt.mp hx
      split <;> omega

/-- `round(x, 2)` never exceeds 0.85 when `x` does not. -/
theorem round2_le_85 {x : ℚ} (h : x ≤ 17 / 20) : round2 x ≤ 17 / 20 := by
  unfold round2
  have h100 : x * 100 ≤ ((85 : ℤ) : ℚ) := by push_cast; linarith
  have := roundHalfEven_le h100
  have hc : ((roundHalfEven (x * 100) : ℤ) : ℚ) ≤ (85 : ℚ) := by exact_mod_cast this
  linarith

/-- `pymin a b ≤ a`. -/
theorem pymin_le_left (a b : ℚ) : pymin a b ≤ a := by
  unfold pymin
  split
  · exact le_refl a
  · rename_i h
    exact le_of_lt (lt_of_not_le h)

/-- `find?` after an upsert of the same key. -/
theorem find?_upsert_self {α : Type} (l : List (String × α)) (k : String) (v : α) :
    (upsert l k v).find? (fun kv => kv.1 = k) = some (k, v) := by
  induction l with
  | nil => simp [upsert]
  | cons kv rest ih =>
    by_cases hk : kv.1 = k
    · simp [upsert, hk]
    · simp [upsert, hk, ih]

/-- `find?` after an upsert of a different key. -/
theorem find?_upsert_ne {α : Type} (l : List (String × α)) {k k' : String} (v : α)
    (h : k' ≠ k) :
    (upsert l k v).find? (fun kv => kv.1 = k') = l.find? (fun kv => kv.1 = k') := by
  induction l with
  | nil => simp [upsert, Ne.symm h]
  | cons kv rest ih =>
    by_cases hk : kv.1 = k
    · simp [upsert, hk, Ne.symm h]
    · by_cases hk' : kv.1 = k'
      · simp [upsert, hk, hk', h]
      · simp [upsert, hk, hk', ih]

/-- `get` after an upsert of the same key. -/
theorem get_upsert_self (l : List (String × Json)) (k : String) (v : Json) :
    (Json.obj (upsert l k v)).get k = v := by
  simp [Json.get, find?_upsert_self]

/-- `get` after an upsert of a different key. -/
theorem get_upsert_ne (l : List (String × Json)) {k k' : String} (v : Json)
    (h : k' ≠ k) :
    (Json.obj (upsert l k v)).get k' = (Json.obj l).get k' := by
  simp [Json.get, find?_upsert_ne l v h]

/-- An upserted key is present. -/
theorem hasKey_upsert_self (l : List (String × Json)) (k : String) (v : Json) :
    hasKey (upsert l k v) k = true := by
  simp [hasKey, find?_upsert_self]

/-- A present key whose binding is read with any default yields the bound
value. -/
theorem getD_of_hasKey (l : List (String × Json)) (k : String) (a : Json)
    (h : hasKey l k = true) :
    ((l.find? (fun kv => kv.1 = k)).map Prod.snd).getD a = (Json.obj l).get k := by
  simp only [hasKey, Option.isSome_iff_exists] at h
  obtain ⟨x, hx⟩ := h
  simp [Json.get, hx]

/-- What a successful `_load_cfg` guarantees: a dict with an
`active_pack` key and a dict-valued `packs` key. -/
theorem load_cfg_some {raw : Option Json} {cfg : Json}
    (h : KgPack.load_cfg raw = some cfg) :
    ∃ kvs, cfg = Json.obj kvs ∧ hasKey kvs "active_pack" = true ∧
      ∃ pk, (Json.obj kvs).get "packs" = Json.obj pk := by
  match raw with
  | none => simp [KgPack.load_cfg] at h
  | some Json.null | some (Json.bool _) | some (Json.num _)
  | some (Json.str _) | some (Json.arr _) => simp [KgPack.load_cfg] at h
  | some (Json.obj kvs) =>
    simp only [KgPack.load_cfg] at h
    cases hp : (Json.obj kvs).get "packs" with
    | null =>
      rw [hp] at h
      simp only [Option.map, Option.some.injEq] at h
      refine ⟨_, h.symm, ?_, ?_⟩
      · split
        · rename_i hk; exact hk
        · exact hasKey_upsert_self _ _ _
      · split
        · exact ⟨[], get_upsert_self _ _ _⟩
        · exact ⟨[], by rw [get_upsert_ne _ _ (by decide)]; exact get_upsert_self _ _ _⟩
    | obj pk =>
      rw [hp] at h
      simp only [Option.map, Option.some.injEq] at h
      refine ⟨_, h.symm, ?_, ?_⟩
      · split
        · rename_i hk; exact hk
        · exact hasKey_upsert_self _ _ _
      · split
        · exact ⟨pk, hp⟩
        · exact ⟨pk, by rw [get_upsert_ne _ _ (by decide)]; exact hp⟩
    | bool b => rw [hp] at h; simp at h
    | num n => rw [hp] at h; simp at h
    | str s => rw [hp] at h; simp at h
    | arr xs => rw [hp] at h; simp at h

/-- `_load_cfg` is the identity on an already-normalized configuration. -/
theorem load_cfg_normalized {kvs : List (String × Json)} {pk : List (String × Json)}
    (hk : hasKey kvs "active_pack" = true)
    (hp : (Json.obj kvs).get "packs" = Json.obj pk) :
    KgPack.load_cfg (some (Json.obj kvs)) = some (Json.obj kvs) := by
  simp only [KgPack.load_cfg]
  rw [hp]
  simp [hk]

/-- What a successful `cmd_activate` guarantees: the configuration loaded,
`active_pack` set to the new pack, `_active_pack_prev` holding the loaded
configuration's previous `active_pack` value, and the written
configuration normalized (so an immediately following command reloads it
unchanged). -/
theorem cmd_activate_spec {raw : Option Json} {d : FileSys} {pid now : String} {c : Json}
    (h : KgPack.cmd_activate raw d pid now = some c) :
    ∃ kvs, KgPack.load_cfg raw = some (Json.obj kvs) ∧
      c.get "active_pack" = Json.str pid ∧
      c.get "_active_pack_prev" = (Json.obj kvs).get "active_pack" ∧
      ∃ ckvs, c = Json.obj ckvs ∧ hasKey ckvs "active_pack" = true ∧
        ∃ pk2, (Json.obj ckvs).get "packs" = Json.obj pk2 := by
  unfold KgPack.cmd_activate at h
  cases hload : KgPack.load_cfg raw with
  | none => rw [hload] at h; simp at h
  | some cfg =>
    obtain ⟨kvs, rfl, hk, pk, hp⟩ := load_cfg_some hload
    rw [hload] at h
    simp only [Option.some_bind] at h
    by_cases hs : KgPack.sanitize_pack_id_ok pid
    · rw [if_neg (by simp [hs])] at h
      rw [hp] at h
      refine ⟨kvs, rfl, ?_⟩
      -- dispose of the registration alternatives uniformly
      have main :
          ∀ kvs0 : List (String × Json),
            (kvs0.find? (fun kv => kv.1 = "active_pack")
              = kvs.find? (fun kv => kv.1 = "active_pack")) →
            ((Json.obj kvs0).get "packs" = Json.obj pk ∨
              (Json.obj kvs0).get "packs"
                = Json.obj (upsert pk pid
                    (Json.obj
                      [("base_dir", Json.str ("kg_packs/" ++ pid)),
                       ("pack_version", Json.str pid),
                       ("schema_version", Json.num 1),
                       ("created_at", Json.str now),
                       ("manifest", Json.str
                         (if d.exists? ("kg_packs/" ++ pid ++ "/manifest.json") then
                           "kg_packs/" ++ pid ++ "/manifest.json" else ""))]))) →
            (match KgPack.cmd_validate raw d (some pid) with
              | some 0 =>
                let prev : Json :=
                  ((kvs0.find? (fun kv => kv.1 = "active_pack")).map Prod.snd).getD
                    (Json.str "default")
                let kvs1 := upsert kvs0 "_active_pack_prev" prev
                let hist := match (Json.obj kvs1).get "active_pack_history" with
                  | .arr xs => xs
                  | _ => []
                let entry := Json.obj [("from", prev), ("to", Json.str pid), ("at", Json.str now)]
                let kvs2 := upsert kvs1 "active_pack_history"
                  (Json.arr (KgPack.lastN 20 (hist ++ [entry])))
                some (Json.obj (upsert kvs2 "active_pack" (Json.str pid)))
              | _ => none) = some c →
            c.get "active_pack" = Json.str pid ∧
            c.get "_active_pack_prev" = (Json.obj kvs).get "active_pack" ∧
            ∃ ckvs, c = Json.obj ckvs ∧ hasKey ckvs "active_pack" = true ∧
              ∃ pk2, (Json.obj ckvs).get "packs" = Json.obj pk2 := by
        intro kvs0 hfind hpk hm
        split at hm
        · rename_i hv
          simp only [Option.some.injEq] at hm
          subst hm
          refine ⟨get_upsert_self _ _ _, ?_, _, rfl, hasKey_upsert_self _ _ _, ?_⟩
          · rw [get_upsert_ne _ _ (by decide), get_upsert_ne _ _ (by decide),
              get_upsert_self]
            rw [hfind]
            exact getD_of_hasKey kvs "active_pack" _ hk
          · rw [get_upsert_ne _ _ (by decide), get_upsert_ne _ _ (by decide),
              get_upsert_ne _ _ (by decide)]
            rcases hpk with hpk | hpk
            · exact ⟨pk, hpk⟩
            · exact ⟨_, hpk⟩
        · exact absurd hm (by simp)
      split at h
      · -- already registered
        exact main kvs rfl (Or.inl hp) h
      · split at h
        · exact absurd h (by simp)
        · -- auto-registered
          refine main _ ?_ (Or.inr ?_) h
          · exact find?_upsert_ne kvs _ (by decide)
          · exact get_upsert_self _ _ _
    · rw [if_pos (by simp [hs])] at h
      simp at h

/-- C4 (amended): `activate` then `rollback` (no target, no intervening
activation) restores the `active_pack` pointer to its pre-activate value. -/
theorem C4_rollback_restores_active_pack :
    ∀ raw d pid now1 now2 c2,
      KgPack.activate_then_rollback raw d pid now1 now2 = some c2 →
      ∃ cfg0, KgPack.load_cfg raw = some cfg0 ∧
        c2.get "active_pack" = cfg0.get "active_pack" := by
  intro raw d pid now1 now2 c2 h
  unfold KgPack.activate_then_rollback at h
  cases hact : KgPack.cmd_activate raw d pid now1 with
  | none => rw [hact] at h; simp at h
  | some c1 =>
    rw [hact] at h
    simp only [Option.some_bind] at h
    obtain ⟨kvs, hload, _, hprev, ckvs, rfl, hck, pk2, hcp⟩ := cmd_activate_spec hact
    unfold KgPack.cmd_rollback at h
    rw [load_cfg_normalized hck hcp] at h
    simp only [Option.some_bind] at h
    rw [hprev] at h
    cases hv : (Json.obj kvs).get "active_pack" with
    | str s =>
      rw [hv] at h
      dsimp only at h
      by_cases hse : s = ""
      · rw [if_pos hse] at h; simp at h
      · rw [if_neg hse] at h
        simp only [Option.some_bind] at h
        obtain ⟨_, _, hact2, _⟩ := cmd_activate_spec h
        exact ⟨Json.obj kvs, hload, by rw [hact2, hv]⟩
    | null => rw [hv] at h; simp at h
    | bool b => rw [hv] at h; simp at h
    | num n => rw [hv] at h; simp at h
    | arr xs => rw [hv] at h; simp at h
    | obj o => rw [hv] at h; simp at h

/-- C4 witness: a two-pack configuration; after activate `p2` then
rollback, the active pack is `p1` again. -/
theorem C4_rollback_restores_active_pack_witness :
    ∃ cfg0,
      KgPack.load_cfg (some (Json.obj
        [("active_pack", Json.str "p1"),
         ("packs", Json.obj
           [("p1", Json.obj [("base_dir", Json.str "kg_packs/p1")]),
            ("p2", Json.obj [("base_dir", Json.str "kg_packs/p2")])])])) = some cfg0 ∧
      ((KgPack.activate_then_rollback (some (Json.obj
          [("active_pack", Json.str "p1"),
           ("packs", Json.obj
             [("p1", Json.obj [("base_dir", Json.str "kg_packs/p1")]),
              ("p2", Json.obj [("base_dir", Json.str "kg_packs/p2")])])]))
          { files := [], parsed := [], dirs := ["kg_packs/p1", "kg_packs/p2"] }
          "p2" "t1" "t2").getD Json.null).get "active_pack" = cfg0.get "active_pack" :=
  C4_rollback_restores_active_pack
    (some (Json.obj
      [("active_pack", Json.str "p1"),
       ("packs", Json.obj
         [("p1", Json.obj [("base_dir", Json.str "kg_packs/p1")]),
          ("p2", Json.obj [("base_dir", Json.str "kg_packs/p2")])])]))
    { files := [], parsed := [], dirs := ["kg_packs/p1", "kg_packs/p2"] }
    "p2" "t1" "t2"
    ((KgPack.activate_then_rollback (some (Json.obj
        [("active_pack", Json.str "p1"),
         ("packs", Json.obj
           [("p1", Json.obj [("base_dir", Json.str "kg_packs/p1")]),
            ("p2", Json.obj [("base_dir", Json.str "kg_packs/p2")])])]))
        { files := [], parsed := [], dirs := ["kg_packs/p1", "kg_packs/p2"] }
        "p2" "t1" "t2").getD Json.null)
    rfl

/-- C4 counterexample: on the same two-pack configuration, the file content
written after activate-then-rollback (the `indent=2` dump) is NOT
byte-identical to the pre-activate content: the history ledger has grown
by two entries and `_active_pack_prev` now names the rolled-back pack,
even though the `active_pack` pointer is restored. -/
theorem C4_counterexample :
    ((KgPack.activate_then_rollback (some (Json.obj
        [("active_pack", Json.str "p1"),
         ("packs", Json.obj
           [("p1", Json.obj [("base_dir", Json.str "kg_packs/p1")]),
            ("p2", Json.obj [("base_dir", Json.str "kg_packs/p2")])])]))
        { files := [], parsed := [], dirs := ["kg_packs/p1", "kg_packs/p2"] }
        "p2" "t1" "t2").map KgPack.dumpsIndent2
      ≠ some (KgPack.dumpsIndent2 (Json.obj
        [("active_pack", Json.str "p1"),
         ("packs", Json.obj
           [("p1", Json.obj [("base_dir", Json.str "kg_packs/p1")]),
            ("p2", Json.obj [("base_dir", Json.str "kg_packs/p2")])])]))) ∧
    ((KgPack.activate_then_rollback (some (Json.obj
        [("active_pack", Json.str "p1"),
         ("packs", Json.obj
           [("p1", Json.obj [("base_dir", Json.str "kg_packs/p1")]),
            ("p2", Json.obj [("base_dir", Json.str "kg_packs/p2")])])]))
        { files := [], parsed := [], dirs := ["kg_packs/p1", "kg_packs/p2"] }
        "p2" "t1" "t2").map (fun c => (c.get "active_pack").asStr) = some "p1") := by
  exact ⟨by decide, by decide⟩

/-! ## Claim theorems -/

/-- C1: the three artifacts do NOT all stamp the same `input_sha256`.
The RegionUpgrade artifact copies the ProjectProfile's value verbatim and
the ProjectProfile stamps `_stable_sha256` (compact separators), but
`build_kg_context` hashes the default-separator serialization: on the
payload `\x7b"topic": "x"\x7d` the two stamped digests differ, so the
audit service's own `input_sha256_consistency` check cannot hold. -/
theorem C1_input_sha256_not_uniform :
    (∀ payload project_profile cfg fs,
      (RegionUpgrade.resolve_region_upgrade payload project_profile cfg fs).input_sha256
        = (Json.obj project_profile).get "input_sha256") ∧
    (∀ payload rules,
      (ProjectProfile.generate_project_profile payload rules).input_sha256
        = ProjectProfile.stable_sha256 (Json.obj payload)) ∧
    ProjectProfile.stable_sha256 (Json.obj [("topic", Json.str "x")])
      = "589c84f1ad0698799a933463af58d1cd6bb200f1fbc4343d48fabb8467919de5" ∧
    KGContext.kg_input_sha256 [("topic", Json.str "x")]
      = "a3e99d3b24ade1879537b8e68090178ad161090363e41c361454761f1258b5ae" ∧
    ProjectProfile.stable_sha256 (Json.obj [("topic", Json.str "x")])
      ≠ KGContext.kg_input_sha256 [("topic", Json.str "x")] := by
  refine ⟨?_, fun _ _ => rfl, by decide, by decide, by decide⟩
  intro payload project_profile cfg fs
  unfold RegionUpgrade.resolve_region_upgrade
  dsimp only
  repeat' split
  all_goals rfl

/-- C6: `_write_cfg` creates the timestamped backup and then overwrites
`kg_config.json` with a direct in-place write; its operation trace contains
no rename at all, so activation does not use write-then-rename
semantics. -/
theorem C6_write_cfg_writes_in_place :
    ∀ oldRaw cfg backup ts,
      ((KgPack.write_cfg_ops oldRaw cfg backup ts).all
        (fun op => !op.isRename)) = true ∧
      KgPack.FsOp.write "kg_config.json" (KgPack.dumpsIndent2 cfg)
        ∈ KgPack.write_cfg_ops oldRaw cfg backup ts ∧
      (backup = true →
        KgPack.FsOp.write ("kg_config.json.bak." ++ ts) (oldRaw.getD "\x7b\x7d")
          ∈ KgPack.write_cfg_ops oldRaw cfg backup ts) := by
  intro oldRaw cfg backup ts
  unfold KgPack.write_cfg_ops
  cases oldRaw <;> cases backup <;>
    simp [KgPack.FsOp.isRename]

/-- C6 witness: the trace of one concrete activation write. -/
theorem C6_write_cfg_writes_in_place_witness :
    KgPack.FsOp.write ("kg_config.json.bak." ++ "20250101_000000")
        ((some "\x7b\x7d" : Option String).getD "\x7b\x7d")
      ∈ KgPack.write_cfg_ops (some "\x7b\x7d") (Json.obj []) true "20250101_000000" :=
  (C6_write_cfg_writes_in_place (some "\x7b\x7d") (Json.obj []) true
    "20250101_000000").2.2 rfl

/-- C7: the gate's overall `passed` is the conjunction of all individual
checks, and a `block_and_review` profile decision always fails the
`PROJECT_PROFILE_DECISION` check, hence the gate. -/
theorem C7_gate_passed_conjunction :
    ∀ payload project_profile env,
      (Precheck.run_precheck_guard payload project_profile env).passed
        = (Precheck.run_precheck_guard payload project_profile env).details.all
            (fun dd => dd.passed) ∧
      ((Json.obj project_profile).get "decision" = Json.str "block_and_review" →
        (Precheck.run_precheck_guard payload project_profile env).passed = false) := by
  intro payload project_profile env
  constructor
  · rfl
  · intro h
    simp only [Precheck.run_precheck_guard, h]
    simp [Precheck.isBlockDecision]

/-- C7 witness: a payload with topic and outline present but a blocked
profile decision fails the gate. -/
theorem C7_gate_passed_conjunction_witness :
    (Precheck.run_precheck_guard
      [("topic", Json.str "x"), ("outline", Json.arr [Json.str "a"])]
      [("decision", Json.str "block_and_review")]
      { rule_path := "r.json", rule_bytes := none, rule_json := none }).passed = false :=
  (C7_gate_passed_conjunction
    [("topic", Json.str "x"), ("outline", Json.arr [Json.str "a"])]
    [("decision", Json.str "block_and_review")]
    { rule_path := "r.json", rule_bytes := none, rule_json := none }).2 rfl

/-- A keyword-inferred project type (source `"keyword"`) always has
confidence at most 0.85: the rule-file base confidence is capped at 0.80
and the final value at 0.85 before two-decimal rounding. -/
theorem keyword_confidence_le (payload : List (String × Json))
    (rules : ProjectProfile.Rules) :
    (ProjectProfile.infer_project_type payload rules).source = "keyword" →
    (ProjectProfile.infer_project_type payload rules).confidence ≤ 17 / 20 := by
  unfold ProjectProfile.infer_project_type
  split
  · intro h
    dsimp only at h
    have hl := congrArg String.length h
    rw [String.length_append] at hl
    have h9 : ("explicit:" : String).length = 9 := rfl
    have h7 : ("keyword" : String).length = 7 := rfl
    rw [h9, h7] at hl
    omega
  · dsimp only
    split
    · intro h
      exact absurd h (by decide)
    · split
      · intro h
        exact absurd h (by decide)
      · intro _
        dsimp only
        exact round2_le_85 (pymin_le_left _ _)

/-- C2 counterexample: with the default rule file (thresholds 0.85 / 0.70,
base confidence 0.75), a payload whose topic hits five decoration keywords
is classified by keyword inference at confidence exactly 0.85, which is
NOT below the configured `auto_accept` threshold, and the profile decision
is `auto_accept`. -/
theorem C2_counterexample :
    (ProjectProfile.generate_project_profile
        [("topic", Json.str "装修装饰精装吊顶墙面")]
        ProjectProfile.Rules.empty).project_type.source = "keyword" ∧
    (ProjectProfile.generate_project_profile
        [("topic", Json.str "装修装饰精装吊顶墙面")]
        ProjectProfile.Rules.empty).project_type.confidence = 17 / 20 ∧
    ¬ (ProjectProfile.generate_project_profile
        [("topic", Json.str "装修装饰精装吊顶墙面")]
        ProjectProfile.Rules.empty).project_type.confidence
      < ProjectProfile.Rules.empty.auto_accept.getD (17 / 20) ∧
    (ProjectProfile.generate_project_profile
        [("topic", Json.str "装修装饰精装吊顶墙面")]
        ProjectProfile.Rules.empty).decision = "auto_accept" := by
  exact ⟨by decide, by decide, by decide, by decide⟩

/-- C2 (amended): keyword-inferred confidence is at most 0.85, and
keyword inference can never yield `auto_accept` when the configured
`auto_accept` threshold exceeds 0.85; at thresholds of 0.85 or below
(including the default) it can. -/
theorem C2_keyword_confidence_capped :
    ∀ payload rules,
      (ProjectProfile.generate_project_profile payload rules).project_type.source
          = "keyword" →
      (ProjectProfile.generate_project_profile payload rules).project_type.confidence
          ≤ 17 / 20 ∧
      (17 / 20 < rules.auto_accept.getD (17 / 20) →
        (ProjectProfile.generate_project_profile payload rules).decision
          ≠ "auto_accept") := by
  intro payload rules h
  have hconf := keyword_confidence_le payload rules h
  refine ⟨hconf, fun hauto => ?_⟩
  have hlt : (ProjectProfile.infer_project_type payload rules).confidence
      < rules.auto_accept.getD (17 / 20) := lt_of_le_of_lt hconf hauto
  show (ProjectProfile.generate_project_profile payload rules).decision ≠ "auto_accept"
  unfold ProjectProfile.generate_project_profile
  dsimp only
  rw [if_neg (not_le.mpr hlt)]
  split <;> decide

/-- C2 witness: two drainage keywords infer `市政排水` at confidence 0.78;
with `auto_accept` configured at 0.9 the decision is not `auto_accept`. -/
theorem C2_keyword_confidence_capped_witness :
    (ProjectProfile.generate_project_profile [("topic", Json.str "排水管道")]
        { ProjectProfile.Rules.empty with auto_accept := some (9 / 10) }).project_type.source
      = "keyword" ∧
    (17 : ℚ) / 20 < (9 : ℚ) / 10 ∧
    (ProjectProfile.generate_project_profile [("topic", Json.str "排水管道")]
        { ProjectProfile.Rules.empty with auto_accept := some (9 / 10) }).project_type.confidence
      ≤ 17 / 20 ∧
    (ProjectProfile.generate_project_profile [("topic", Json.str "排水管道")]
        { ProjectProfile.Rules.empty with auto_accept := some (9 / 10) }).decision
      ≠ "auto_accept" :=
  ⟨by decide, by decide,
   (C2_keyword_confidence_capped [("topic", Json.str "排水管道")]
     { ProjectProfile.Rules.empty with auto_accept := some (9 / 10) } (by decide)).1,
   (C2_keyword_confidence_capped [("topic", Json.str "排水管道")]
     { ProjectProfile.Rules.empty with auto_accept := some (9 / 10) } (by decide)).2
     (by decide)⟩

/-- C9 counterexample: two gate evaluations with identical `reasons` and
`suggested_actions` (both empty) but different profile decisions render
different `human_readable` strings, so `human_readable` is not reproducible
from `reasons` + `suggested_actions` alone. -/
theorem C9_counterexample :
    (Precheck.run_precheck_guard
        [("topic", Json.str "x"), ("outline", Json.arr [Json.str "a"])]
        [("decision", Json.str "auto_accept")]
        { rule_path := "r.json", rule_bytes := none, rule_json := none }).reasons
      = (Precheck.run_precheck_guard
        [("topic", Json.str "x"), ("outline", Json.arr [Json.str "a"])]
        [("decision", Json.str "require_manual_confirm")]
        { rule_path := "r.json", rule_bytes := none, rule_json := none }).reasons ∧
    (Precheck.run_precheck_guard
        [("topic", Json.str "x"), ("outline", Json.arr [Json.str "a"])]
        [("decision", Json.str "auto_accept")]
        { rule_path := "r.json", rule_bytes := none, rule_json := none }).suggested_actions
      = (Precheck.run_precheck_guard
        [("topic", Json.str "x"), ("outline", Json.arr [Json.str "a"])]
        [("decision", Json.str "require_manual_confirm")]
        { rule_path := "r.json", rule_bytes := none, rule_json := none }).suggested_actions ∧
    (Precheck.run_precheck_guard
        [("topic", Json.str "x"), ("outline", Json.arr [Json.str "a"])]
        [("decision", Json.str "auto_accept")]
        { rule_path := "r.json", rule_bytes := none, rule_json := none }).human_readable
      ≠ (Precheck.run_precheck_guard
        [("topic", Json.str "x"), ("outline", Json.arr [Json.str "a"])]
        [("decision", Json.str "require_manual_confirm")]
        { rule_path := "r.json", rule_bytes := none, rule_json := none }).human_readable := by
  refine ⟨by decide, by decide, by decide⟩

/-- C9 (amended): `human_readable` is a deterministic render of exactly
`passed`, `rule_path`, `rule_sha256`, `project_profile_decision`,
`reasons` and `suggested_actions`; two evaluations agreeing on those six
render identically. -/
theorem C9_human_readable_determined :
    ∀ p₁ pr₁ e₁ p₂ pr₂ e₂,
      (Precheck.run_precheck_guard p₁ pr₁ e₁).passed
        = (Precheck.run_precheck_guard p₂ pr₂ e₂).passed →
      (Precheck.run_precheck_guard p₁ pr₁ e₁).rule_path
        = (Precheck.run_precheck_guard p₂ pr₂ e₂).rule_path →
      (Precheck.run_precheck_guard p₁ pr₁ e₁).rule_sha256
        = (Precheck.run_precheck_guard p₂ pr₂ e₂).rule_sha256 →
      (Precheck.run_precheck_guard p₁ pr₁ e₁).project_profile_decision
        = (Precheck.run_precheck_guard p₂ pr₂ e₂).project_profile_decision →
      (Precheck.run_precheck_guard p₁ pr₁ e₁).reasons
        = (Precheck.run_precheck_guard p₂ pr₂ e₂).reasons →
      (Precheck.run_precheck_guard p₁ pr₁ e₁).suggested_actions
        = (Precheck.run_precheck_guard p₂ pr₂ e₂).suggested_actions →
      (Precheck.run_precheck_guard p₁ pr₁ e₁).human_readable
        = (Precheck.run_precheck_guard p₂ pr₂ e₂).human_readable := by
  intro p₁ pr₁ e₁ p₂ pr₂ e₂ h1 h2 h3 h4 h5 h6
  unfold Precheck.Evaluation.human_readable
  rw [h1, h2, h3, h4, h5, h6]

/-- C9 witness: two runs on payloads differing in an ignored extra field
agree on the six render inputs and produce the same text. -/
theorem C9_human_readable_determined_witness :
    (Precheck.run_precheck_guard
        [("topic", Json.str "x"), ("outline", Json.arr [Json.str "a"])] []
        { rule_path := "r.json", rule_bytes := none, rule_json := none }).human_readable
      = (Precheck.run_precheck_guard
        [("topic", Json.str "x"), ("outline", Json.arr [Json.str "a"]), ("extra", Json.num 1)] []
        { rule_path := "r.json", rule_bytes := none, rule_json := none }).human_readable :=
  C9_human_readable_determined _ _ _ _ _ _
    (by decide) (by decide) (by decide) rfl (by decide) (by decide)

/-- C10: the baseline gate checks are type-strict — `TOPIC_REQUIRED`
passes exactly for a string topic with a non-whitespace character, and
`OUTLINE_REQUIRED` exactly for a non-empty list — while the rule-declared
`required_fields` use the broader `_is_empty` test, under which `None`,
blank strings and empty collections are empty but `0` and `False` count
as present. -/
theorem C10_baseline_checks_type_strict :
    (∀ payload project_profile env,
      (Precheck.checkPassed (Precheck.run_precheck_guard payload project_profile env)
          "TOPIC_REQUIRED" = some true ↔
        ∃ s, (Json.obj payload).get "topic" = Json.str s ∧ pyStrip s ≠ "") ∧
      (Precheck.checkPassed (Precheck.run_precheck_guard payload project_profile env)
          "OUTLINE_REQUIRED" = some true ↔
        ∃ xs, (Json.obj payload).get "outline" = Json.arr xs ∧ xs ≠ [])) ∧
    (∀ v, Precheck.is_empty v = true ↔
      (v = Json.null ∨ (∃ s, v = Json.str s ∧ pyStrip s = "") ∨
        v = Json.arr [] ∨ v = Json.obj [])) ∧
    Precheck.is_empty (Json.num 0) = false ∧
    Precheck.is_empty (Json.bool false) = false ∧
    (∀ payload project_profile env bs j f fs,
      env.rule_bytes = some bs → env.rule_json = some j →
      j.get "required_fields" = Json.arr (f :: fs) →
      (Precheck.checkPassed (Precheck.run_precheck_guard payload project_profile env)
          "REQUIRED_FIELDS_FROM_RULE" = some true ↔
        ∀ fj ∈ f :: fs, ∀ s, fj = Json.str s →
          Precheck.is_empty ((Json.obj payload).get s) = false)) := by
  refine ⟨?_, ?_, rfl, rfl, ?_⟩
  · intro payload project_profile env
    constructor
    · cases hg : (Json.obj payload).get "topic" <;>
        simp [Precheck.run_precheck_guard, Precheck.checkPassed, hg,
          Json.isStr, Json.asStr]
    · cases hg : (Json.obj payload).get "outline" <;>
        simp [Precheck.run_precheck_guard, Precheck.checkPassed, hg,
          List.isEmpty_iff]
  · intro v
    cases v <;> simp [Precheck.is_empty, List.isEmpty_iff]
  · intro payload project_profile env bs j f fs hb hj hrf
    simp only [Precheck.run_precheck_guard, Precheck.checkPassed, hb, hj, hrf]
    rw [List.find?_append]
    rw [List.find?_cons_of_neg _ (by simp), List.find?_cons_of_neg _ (by simp),
      List.find?_cons_of_neg _ (by simp), List.find?_nil,
      List.find?_cons_of_pos _ (by simp)]
    simp only [Option.none_or, Option.map_some']
    constructor
    · intro H fj hfj s hs
      subst hs
      have h1 : (List.filterMap (fun fj =>
          match fj with
          | Json.str s =>
            if Precheck.is_empty ((Json.obj payload).get s) = true then some s else none
          | _ => none) (f :: fs)).isEmpty = true := by
        simpa using H
      rw [List.isEmpty_iff, List.filterMap_eq_nil_iff] at h1
      have := h1 _ hfj
      by_contra hne
      simp only [Bool.not_eq_false] at hne
      simp [hne] at this
    · intro H
      have h1 : (List.filterMap (fun fj =>
          match fj with
          | Json.str s =>
            if Precheck.is_empty ((Json.obj payload).get s) = true then some s else none
          | _ => none) (f :: fs)) = [] := by
        rw [List.filterMap_eq_nil_iff]
        intro fj hfj
        cases fj <;> simp
        rename_i s
        exact H _ hfj s rfl
      simp [h1]

/-- C10 witness: with a rule file requiring `project_name`, a payload
binding it to `0` passes the required-fields check. -/
theorem C10_baseline_checks_type_strict_witness :
    Precheck.checkPassed
      (Precheck.run_precheck_guard
        [("topic", Json.str "x"), ("outline", Json.arr [Json.str "a"]),
         ("project_name", Json.num 0)]
        []
        { rule_path := "r.json", rule_bytes := some [1],
          rule_json := some (Json.obj [("required_fields", Json.arr [Json.str "project_name"])]) })
      "REQUIRED_FIELDS_FROM_RULE" = some true :=
  (C10_baseline_checks_type_strict.2.2.2.2
    [("topic", Json.str "x"), ("outline", Json.arr [Json.str "a"]),
     ("project_name", Json.num 0)]
    []
    { rule_path := "r.json", rule_bytes := some [1],
      rule_json := some (Json.obj [("required_fields", Json.arr [Json.str "project_name"])]) }
    [1] (Json.obj [("required_fields", Json.arr [Json.str "project_name"])])
    (Json.str "project_name") [] rfl rfl rfl).mpr (by
      intro fj hfj s hs
      subst hs
      simp at hfj
      rw [hfj]
      decide)

/-- A candidate accepted by `add_candidate` exists under the base
directory. -/
theorem add_candidate_exists {base : String} {d : FileSys} {val r : String}
    (h : KgPack.add_candidate base d val = some r) :
    d.existsAny? (joinPath base r) = true := by
  simp only [KgPack.add_candidate, Option.bind_eq_some] at h
  repeat' split at h
  all_goals simp at h
  all_goals
    obtain ⟨hex, hr⟩ := h
    subst hr
    exact hex

mutual

/-- Every path `walk` collects from a value exists under the base. -/
theorem mem_walkCollect (base : String) (d : FileSys) (r : String) :
    ∀ j : Json, r ∈ KgPack.walkCollect base d j →
      d.existsAny? (joinPath base r) = true
  | .str s, hr => by
      simp only [KgPack.walkCollect] at hr
      split at hr
      · rename_i rr hrr
        simp only [List.mem_singleton] at hr
        subst hr
        exact add_candidate_exists hrr
      · simp at hr
  | .arr xs, hr => mem_walkCollectList base d r xs hr
  | .obj kvs, hr => mem_walkCollectKvs base d r kvs hr
  | .null, hr => by simp [KgPack.walkCollect] at hr
  | .bool b, hr => by simp [KgPack.walkCollect] at hr
  | .num n, hr => by simp [KgPack.walkCollect] at hr

/-- Every path `walk` collects from a list of values exists. -/
theorem mem_walkCollectList (base : String) (d : FileSys) (r : String) :
    ∀ xs : List Json, r ∈ KgPack.walkCollectList base d xs →
      d.existsAny? (joinPath base r) = true
  | x :: xs, hr => by
      simp only [KgPack.walkCollectList, List.mem_append] at hr
      cases hr with
      | inl h => exact mem_walkCollect base d r x h
      | inr h => exact mem_walkCollectList base d r xs h
  | [], hr => by simp [KgPack.walkCollectList] at hr

/-- Every path `walk` collects from dict bindings exists. -/
theorem mem_walkCollectKvs (base : String) (d : FileSys) (r : String) :
    ∀ kvs : List (String × Json), r ∈ KgPack.walkCollectKvs base d kvs →
      d.existsAny? (joinPath base r) = true
  | kv :: kvs, hr => by
      simp only [KgPack.walkCollectKvs, List.mem_append] at hr
      cases hr with
      | inl h =>
        split at h
        · simp at h
        · exact mem_walkCollect base d r kv.2 h
      | inr h => exact mem_walkCollectKvs base d r kvs h
  | [], hr => by simp [KgPack.walkCollectKvs] at hr

end

/-- Membership after a stable insertion. -/
theorem mem_insertLe {α : Type} {le : α → α → Bool} {a x : α} :
    ∀ {l : List α}, a ∈ insertLe le x l → a = x ∨ a ∈ l := by
  intro l
  induction l with
  | nil => simp [insertLe]
  | cons b bs ih =>
    simp only [insertLe]
    split
    · simp
    · intro h
      simp only [List.mem_cons] at h
      rcases h with h | h
      · exact Or.inr (by simp [h])
      · rcases ih h with h' | h'
        · exact Or.inl h'
        · exact Or.inr (by simp [h'])

/-- The stable sort produces no new elements. -/
theorem mem_stableSortLe {α : Type} {le : α → α → Bool} {a : α} :
    ∀ {l : List α}, a ∈ stableSortLe le l → a ∈ l := by
  intro l
  induction l with
  | nil => simp [stableSortLe]
  | cons b bs ih =>
    intro h
    rcases mem_insertLe (l := stableSortLe le bs) h with h' | h'
    · simp [h']
    · simp [ih h']

/-- Deduplication produces no new elements. -/
theorem mem_dedup {a : String} {l : List String} (h : a ∈ dedup l) : a ∈ l := by
  suffices H : ∀ (l : List String) (acc : List String),
      a ∈ l.foldl (fun acc s => if acc.contains s then acc else acc ++ [s]) acc →
      a ∈ acc ∨ a ∈ l by
    rcases H l [] h with h' | h'
    · simp at h'
    · exact h'
  intro l
  induction l with
  | nil => intro acc h; exact Or.inl h
  | cons b bs ih =>
    intro acc h
    simp only [List.foldl_cons] at h
    rcases ih _ h with h' | h'
    · split at h'
      · exact Or.inl h'
      · simp only [List.mem_append, List.mem_singleton] at h'
        rcases h' with h' | h'
        · exact Or.inl h'
        · simp [h']
    · simp [h']

/-- Every path `_collect_existing_relpaths` returns exists under the
base directory. -/
theorem mem_collect_exists {cfg : Json} {base : String} {d : FileSys} {r : String}
    (h : r ∈ KgPack.collect_existing_relpaths cfg base d) :
    d.existsAny? (joinPath base r) = true := by
  unfold KgPack.collect_existing_relpaths pySortStrings at h
  have h1 := mem_dedup (mem_stableSortLe h)
  cases cfg with
  | obj kvs => exact mem_walkCollectKvs base d r kvs h1
  | null => simp at h1
  | bool b => simp at h1
  | num n => simp at h1
  | str s => simp at h1
  | arr xs => simp at h1

/-- The config-asset step of `cmd_validate` never reports anything
missing: the collection step only keeps existing paths. -/
theorem collect_missing_empty (cfg : Json) (base : String) (d : FileSys) :
    (KgPack.collect_existing_relpaths cfg base d).filter
      (fun r => !d.existsAny? (joinPath base r)) = [] := by
  rw [List.filter_eq_nil_iff]
  intro r hr
  simp [mem_collect_exists hr]

/-- Emptiness of an appended list, as a Boolean conjunction. -/
theorem isEmpty_append {α : Type} (a b : List α) :
    (a ++ b).isEmpty = (a.isEmpty && b.isEmpty) := by
  cases a <;> rfl

/-- A manifest entry that does not crash contributes no problem exactly
when it is fully valid. -/
theorem entry_problems_empty {d : FileSys} {base : String} {it : Json}
    {p : List String} (h : KgPack.entry_problems d base it = some p) :
    p.isEmpty = KgPack.entry_ok d base it := by
  cases it with
  | obj kv =>
    simp only [KgPack.entry_problems] at h
    simp only [KgPack.entry_ok]
    cases hp : (Json.obj kv).get "path" <;>
      (rw [hp] at h
       cases hs : (Json.obj kv).get "sha256" <;>
         (rw [hs] at h
          simp only [Json.truthy] at h
          repeat' split at h
          all_goals (simp_all
                     try subst_vars
                     try simp_all
                     try tauto)))
  | null => simp only [KgPack.entry_problems, Option.some.injEq] at h; subst h; rfl
  | bool b => simp only [KgPack.entry_problems, Option.some.injEq] at h; subst h; rfl
  | num n => simp only [KgPack.entry_problems, Option.some.injEq] at h; subst h; rfl
  | str s => simp only [KgPack.entry_problems, Option.some.injEq] at h; subst h; rfl
  | arr xs => simp only [KgPack.entry_problems, Option.some.injEq] at h; subst h; rfl

/-- A `files[]` loop that does not crash reports no problem exactly when
all entries are valid. -/
theorem entries_problems_isEmpty {d : FileSys} {base : String} :
    ∀ {l : List Json} {ps : List String},
      KgPack.entries_problems d base l = some ps →
      ps.isEmpty = l.all (KgPack.entry_ok d base) := by
  intro l
  induction l with
  | nil =>
    intro ps h
    simp only [KgPack.entries_problems, Option.some.injEq] at h
    subst h
    rfl
  | cons x xs ih =>
    intro ps h
    simp only [KgPack.entries_problems] at h
    cases hx : KgPack.entry_problems d base x with
    | none => rw [hx] at h; simp at h
    | some p =>
      rw [hx] at h
      cases hxs : KgPack.entries_problems d base xs with
      | none => rw [hxs] at h; simp at h
      | some ps2 =>
        rw [hxs] at h
        simp only [Option.some_bind, Option.map, Option.some.injEq] at h
        subst h
        simp only [List.all_cons, isEmpty_append, entry_problems_empty hx, ih hxs]

/-- The success bit of a non-crashing `_validate_pack_by_manifest` run is
precisely `the manifest exists and is fully valid`. -/
theorem validate_fst {d : FileSys} {base : String} {vp : Bool × List String}
    (h : KgPack.validate_pack_by_manifest d base = some vp) :
    vp.1 = (d.exists? (joinPath base "manifest.json") && KgPack.manifest_ok d base) := by
  simp only [KgPack.validate_pack_by_manifest] at h
  unfold KgPack.manifest_ok
  by_cases he : d.exists? (joinPath base "manifest.json")
  · rw [if_neg (by simp [he])] at h
    cases hl : d.loadJson (joinPath base "manifest.json") with
    | none =>
      rw [hl] at h
      simp only [Option.some.injEq] at h
      subst h
      simp [he]
    | some man =>
      rw [hl] at h
      cases man with
      | null => exact absurd h (by simp)
      | bool b => exact absurd h (by simp)
      | num n => exact absurd h (by simp)
      | str s2 => exact absurd h (by simp)
      | arr xs2 => exact absurd h (by simp)
      | obj kvs =>
      have h2 : (match (Json.obj kvs).get "files" with
        | Json.arr (x :: xs) =>
          (KgPack.entries_problems d base (x :: xs)).map (fun ps => (ps.isEmpty, ps))
        | _ => some (false, ["manifest.json: files missing or empty"])) = some vp := h
      cases hf : (Json.obj kvs).get "files" with
      | arr xs =>
        rw [hf] at h2
        cases xs with
        | nil =>
          simp only [Option.some.injEq] at h2
          subst h2
          simp [he, hf]
        | cons x xs =>
          have h3 : (KgPack.entries_problems d base (x :: xs)).map
              (fun ps => (ps.isEmpty, ps)) = some vp := h2
          cases hep : KgPack.entries_problems d base (x :: xs) with
          | none => rw [hep] at h3; simp at h3
          | some ps =>
            rw [hep] at h3
            simp only [Option.map, Option.some.injEq] at h3
            subst h3
            simp [he, hf, entries_problems_isEmpty hep]
      | null => rw [hf] at h2; simp only [Option.some.injEq] at h2; subst h2; simp [he, hf]
      | bool b => rw [hf] at h2; simp only [Option.some.injEq] at h2; subst h2; simp [he, hf]
      | num n => rw [hf] at h2; simp only [Option.some.injEq] at h2; subst h2; simp [he, hf]
      | str s2 => rw [hf] at h2; simp only [Option.some.injEq] at h2; subst h2; simp [he, hf]
      | obj kvs2 => rw [hf] at h2; simp only [Option.some.injEq] at h2; subst h2; simp [he, hf]
  · rw [if_pos (by simp [he])] at h
    simp only [Option.some.injEq] at h
    subst h
    simp [he]

/-- Boolean core of `a listed-file problem contradicts entry validity`. -/
theorem bool_bad (a b c e : Bool) (h : (a && b && (!c || !e)) = true) :
    (a && b && c && e) = false := by
  revert h
  cases a <;> cases b <;> cases c <;> cases e <;> decide

/-- A bad listed file is not a valid entry. -/
theorem listed_bad_not_ok {d : FileSys} {base : String} {it : Json}
    (h : KgPack.listed_file_bad d base it = true) :
    KgPack.entry_ok d base it = false := by
  cases it with
  | obj kv =>
    simp only [KgPack.listed_file_bad] at h
    simp only [KgPack.entry_ok]
    cases hp : (Json.obj kv).get "path" <;>
      (rw [hp] at h
       try (cases hs : (Json.obj kv).get "sha256" <;>
         (rw [hs] at h
          try exact bool_bad _ _ _ _ h)))
  | null => rfl
  | bool b => rfl
  | num n => rfl
  | str s => rfl
  | arr xs => rfl

/-- A bad listed file anywhere in the manifest makes the manifest
invalid. -/
theorem some_bad_not_ok {d : FileSys} {base : String}
    (h : KgPack.some_listed_file_bad d base = true) :
    KgPack.manifest_ok d base = false := by
  unfold KgPack.some_listed_file_bad at h
  unfold KgPack.manifest_ok
  cases hl : d.loadJson (joinPath base "manifest.json") with
  | none => rw [hl] at h
  | some man =>
    rw [hl] at h
    have h1 : (match man.get "files" with
      | Json.arr xs => xs.any (KgPack.listed_file_bad d base)
      | _ => false) = true := h
    show (match man.get "files" with
      | Json.arr (x :: xs) => (x :: xs).all (KgPack.entry_ok d base)
      | _ => false) = false
    cases hf : man.get "files" with
    | arr xs =>
      rw [hf] at h1
      have h2 : xs.any (KgPack.listed_file_bad d base) = true := h1
      simp only [List.any_eq_true] at h2
      obtain ⟨it, hin, hbad⟩ := h2
      cases xs with
      | nil => simp at hin
      | cons x xs =>
        show (x :: xs).all (KgPack.entry_ok d base) = false
        rw [Bool.eq_false_iff]
        intro hall
        rw [List.all_eq_true] at hall
        have hok := hall it hin
        rw [listed_bad_not_ok hbad] at hok
        exact Bool.false_ne_true hok
    | null => rw [hf] at h1
    | bool b => rw [hf] at h1
    | num n => rw [hf] at h1
    | str s => rw [hf] at h1
    | obj kvs => rw [hf] at h1

/-- C5.  Corrected statement.  Whenever `kg pack validate` resolves a
configuration, pack id and base directory, and the manifest check itself
does not crash, its exit status is `2` exactly when the manifest check
fails — and the manifest check fails precisely when the manifest is
missing, unparseable, has a missing/empty/non-list `files` value, or some
entry is invalid, not only when a manifest-listed file is missing or
hash-mismatched (the claim's condition implies failure, second conjunct,
but failure does not imply it: see the counterexample).  When the
manifest check crashes (non-dict manifest JSON, or a truthy non-string
entry `path`), the command aborts with an uncaught exception instead of
returning the claimed failure status (third conjunct). -/
theorem C5_validate_fails_iff_manifest_invalid
    (raw : Option Json) (d : FileSys) (pack_id : Option String)
    (cfg : Json) (pid base : String)
    (hload : KgPack.load_cfg raw = some cfg)
    (heff : KgPack.effective_pack_id cfg pack_id = some pid)
    (hbase : KgPack.validate_base_dir cfg d pid = some base) :
    (∀ vp, KgPack.validate_pack_by_manifest d base = some vp →
        KgPack.cmd_validate raw d pack_id
            = some (if d.exists? (joinPath base "manifest.json")
                       && !KgPack.manifest_ok d base then 2 else 0)
          ∧ ((d.exists? (joinPath base "manifest.json")
                && KgPack.some_listed_file_bad d base) = true →
              KgPack.cmd_validate raw d pack_id = some 2))
    ∧ (d.exists? (joinPath base "manifest.json") = true →
        KgPack.validate_pack_by_manifest d base = none →
        KgPack.cmd_validate raw d pack_id = none) := by
  have hred : KgPack.cmd_validate raw d pack_id
      = (if d.exists? (joinPath base "manifest.json") then
           match KgPack.validate_pack_by_manifest d base with
           | none => none
           | some vp => some (if vp.1 then 0 else 2)
         else some 0) := by
    simp only [KgPack.cmd_validate, hload, heff, hbase, Option.bind]
    rw [collect_missing_empty]
    simp
  refine ⟨fun vp hv => ?_, fun he hnone => ?_⟩
  · have heq : KgPack.cmd_validate raw d pack_id
        = some (if d.exists? (joinPath base "manifest.json")
                   && !KgPack.manifest_ok d base then 2 else 0) := by
      rw [hred, hv]
      have hfst := validate_fst hv
      by_cases he : d.exists? (joinPath base "manifest.json") <;>
        by_cases hm : KgPack.manifest_ok d base <;>
        simp [he, hm] at hfst ⊢ <;>
        simp [hfst]
    refine ⟨heq, fun hbad => ?_⟩
    rw [heq]
    simp only [Bool.and_eq_true] at hbad
    obtain ⟨he, hb⟩ := hbad
    rw [some_bad_not_ok hb]
    simp [he]
  · rw [hred, hnone]
    simp [he]

/-- C5 counterexample to the literal claim: a pack whose manifest parses
but lists no files (`"files": []`) fails validation (exit `2`) although no
manifest-listed file is missing or hash-mismatched. -/
theorem C5_counterexample :
    KgPack.cmd_validate (some c5cfg) c5emptyFs none = some 2
      ∧ KgPack.some_listed_file_bad c5emptyFs "kg_packs/p3" = false :=
  ⟨by decide, by decide⟩

/-- C5 witness: on a pack whose manifest lists a file absent from disk,
the resolution hypotheses hold, the manifest check does not crash, and
validation fails with exit `2`; on a pack whose manifest parses to a
non-dict, the manifest check crashes and the command aborts. -/
theorem C5_validate_fails_iff_manifest_invalid_witness :
    (KgPack.load_cfg (some c5cfg) = some c5cfg
      ∧ (FileSys.exists? c5badFs (joinPath "kg_packs/p3" "manifest.json")
          && KgPack.some_listed_file_bad c5badFs "kg_packs/p3") = true
      ∧ KgPack.validate_pack_by_manifest c5badFs "kg_packs/p3"
          = some (false, ["missing file: a.json"]))
    ∧ KgPack.cmd_validate (some c5cfg) c5badFs none = some 2
    ∧ KgPack.cmd_validate (some c5cfg) c5crashFs none = none := by
  refine ⟨⟨?_, ?_, ?_⟩, ?_, ?_⟩
  · rfl
  · decide
  · decide
  · exact ((C5_validate_fails_iff_manifest_invalid (some c5cfg) c5badFs none c5cfg
      "p3" "kg_packs/p3" rfl (by decide) (by decide)).1
        (false, ["missing file: a.json"]) (by decide)).2 (by decide)
  · exact (C5_validate_fails_iff_manifest_invalid (some c5cfg) c5crashFs none c5cfg
      "p3" "kg_packs/p3" rfl (by decide) (by decide)).2 (by decide) (by decide)

/-- A `keep-unless-predicate` filterMap is empty exactly when the
predicate holds everywhere. -/
theorem filterMap_if_isEmpty {α β : Type} (p : α → Bool) (f : α → β) :
    ∀ l : List α,
      (l.filterMap (fun n => if p n then none else some (f n))).isEmpty = l.all p := by
  intro l
  induction l with
  | nil => rfl
  | cons x xs ih =>
    simp only [List.filterMap_cons, List.all_cons]
    by_cases hx : p x
    · simp [hx, ih]
    · simp [hx]

/-- Keeping the failures of a check is empty exactly when the check holds
everywhere. -/
theorem filter_not_isEmpty {α : Type} (q : α → Bool) :
    ∀ l : List α, (l.filter (fun a => !q a)).isEmpty = l.all q := by
  intro l
  induction l with
  | nil => rfl
  | cons x xs ih =>
    simp only [List.filter_cons, List.all_cons]
    by_cases hx : q x
    · simp [hx, ih]
    · simp [hx]

/-- `find?` by key sees only the key column. -/
theorem find?_isSome_of_keys {beta : Type} (p : String) :
    ∀ (l₁ l₂ : List (String × beta)), l₁.map Prod.fst = l₂.map Prod.fst →
      (l₁.find? (fun kv => kv.1 = p)).isSome = (l₂.find? (fun kv => kv.1 = p)).isSome := by
  intro l₁
  induction l₁ with
  | nil =>
    intro l₂ h
    cases l₂ with
    | nil => rfl
    | cons b t₂ => simp at h
  | cons a t ih =>
    intro l₂ h
    cases l₂ with
    | nil => simp at h
    | cons b t₂ =>
      simp only [List.map_cons, List.cons.injEq] at h
      obtain ⟨h1, h2⟩ := h
      by_cases hp : a.1 = p
      · rw [List.find?_cons_of_pos _ (by simp [hp]),
          List.find?_cons_of_pos _ (by simp [h1 ▸ hp])]
        rfl
      · rw [List.find?_cons_of_neg _ (by simp [hp]),
          List.find?_cons_of_neg _ (by simp [h1 ▸ hp])]
        exact ih t₂ h2

/-- File existence depends only on the set of file names, not their
contents. -/
theorem exists_eq_of_keys {fs₁ fs₂ : FileSys}
    (h : fs₁.files.map Prod.fst = fs₂.files.map Prod.fst) (p : String) :
    fs₁.exists? p = fs₂.exists? p :=
  find?_isSome_of_keys p fs₁.files fs₂.files h

/-- Parse outcomes agree when the parse maps agree. -/
theorem loadJson_eq_of_parsed {fs₁ fs₂ : FileSys}
    (h : fs₁.parsed = fs₂.parsed) (p : String) :
    fs₁.loadJson p = fs₂.loadJson p := by
  unfold FileSys.loadJson
  rw [h]

/-- `_safe_read_json` agrees on file systems with the same names and
parse outcomes. -/
theorem safeJson_eq_of_keys {fs₁ fs₂ : FileSys}
    (hk : fs₁.files.map Prod.fst = fs₂.files.map Prod.fst)
    (hp : fs₁.parsed = fs₂.parsed) (p : String) :
    fs₁.safeJson p = fs₂.safeJson p := by
  unfold FileSys.safeJson
  rw [exists_eq_of_keys hk, loadJson_eq_of_parsed hp]

/-- The audit's region key agrees on file systems with the same names and
parse outcomes. -/
theorem audit_region_key_eq_of_keys (cfg : KgLoader.KgCfg) {fs₁ fs₂ : FileSys}
    (hk : fs₁.files.map Prod.fst = fs₂.files.map Prod.fst)
    (hp : fs₁.parsed = fs₂.parsed) :
    Audit.audit_region_key cfg fs₁ = Audit.audit_region_key cfg fs₂ := by
  unfold Audit.audit_region_key
  rw [safeJson_eq_of_keys hk hp]

/-- The whole replay block agrees on file systems with the same names and
parse outcomes (so recorded file bytes — and hence recomputed hashes —
never influence it). -/
theorem audit_replay_eq_of_keys (cfg : KgLoader.KgCfg) {fs₁ fs₂ : FileSys}
    (hk : fs₁.files.map Prod.fst = fs₂.files.map Prod.fst)
    (hp : fs₁.parsed = fs₂.parsed) :
    Audit.build_audit_replay cfg fs₁ = Audit.build_audit_replay cfg fs₂ := by
  have hm : Audit.audit_missing cfg fs₁ = Audit.audit_missing cfg fs₂ := by
    unfold Audit.audit_missing
    rw [audit_region_key_eq_of_keys cfg hk hp]
    simp only [exists_eq_of_keys hk]
  unfold Audit.build_audit_replay
  rw [hm]

/-- A single-file missing-list block is empty exactly when the file
exists. -/
theorem isEmpty_if_missing (b : Bool) (p : String) :
    (if b = true then ([] : List String) else [p]).isEmpty = b := by
  cases b <;> rfl

/-- Replayability is exactly `all artifacts exist and all referenced rule
files exist`, whenever the three single-file getters resolve. -/
theorem replayable_eq_exists (cfg : KgLoader.KgCfg) (fs : FileSys)
    (h : Audit.KgCfg.resolved cfg = true) :
    (Audit.build_audit_replay cfg fs).replayable
      = (Audit.artifact_names.all (fun n => fs.exists? (Audit.artifact_path n))
         && (Audit.audit_rule_paths cfg fs).all fs.exists?) := by
  simp only [Audit.KgCfg.resolved, Bool.and_eq_true, Option.isSome_iff_exists] at h
  obtain ⟨⟨⟨p1, hp1⟩, p2, hp2⟩, p3, hp3⟩ := h
  simp only [Audit.build_audit_replay, Audit.audit_missing, Audit.audit_rule_paths,
    hp1, hp2, hp3]
  cases hrk : Audit.audit_region_key cfg fs with
  | none =>
    simp [isEmpty_append, filterMap_if_isEmpty, filter_not_isEmpty,
      isEmpty_if_missing, Bool.and_assoc]
  | some k =>
    cases hrr : KgLoader.get_region_upgrade_rule k cfg with
    | none =>
      simp [hrr, isEmpty_append, filterMap_if_isEmpty, filter_not_isEmpty,
        isEmpty_if_missing, Bool.and_assoc]
    | some rp =>
      simp [hrr, isEmpty_append, filterMap_if_isEmpty, filter_not_isEmpty,
        isEmpty_if_missing, Bool.and_assoc]

/-- C3.  Whenever the configuration's three single-file rule getters
resolve, `replay.replayable` is `true` exactly when every expected
artifact file and every referenced rule file exists on disk; the replay
block is entirely insensitive to file contents (so a `rule_sha256`
mismatch, recomputed from bytes, can never make it `false`); and with no
artifacts on disk `replayable` is `false` with every expected artifact
path in `missing`. -/
theorem C3_replayable_iff_files_exist :
    (∀ (cfg : KgLoader.KgCfg) (fs : FileSys), Audit.KgCfg.resolved cfg = true →
        (Audit.build_audit_replay cfg fs).replayable
          = (Audit.artifact_names.all (fun n => fs.exists? (Audit.artifact_path n))
             && (Audit.audit_rule_paths cfg fs).all fs.exists?))
  ∧ (∀ (cfg : KgLoader.KgCfg) (fs₁ fs₂ : FileSys),
        fs₁.files.map Prod.fst = fs₂.files.map Prod.fst → fs₁.parsed = fs₂.parsed →
        Audit.build_audit_replay cfg fs₁ = Audit.build_audit_replay cfg fs₂)
  ∧ (∀ (cfg : KgLoader.KgCfg) (fs : FileSys),
        (∀ n ∈ Audit.artifact_names, fs.exists? (Audit.artifact_path n) = false) →
        (Audit.build_audit_replay cfg fs).replayable = false
          ∧ ∀ n ∈ Audit.artifact_names,
              Audit.artifact_path n ∈ (Audit.build_audit_replay cfg fs).missing) := by
  refine ⟨replayable_eq_exists, fun cfg fs₁ fs₂ hk hp => audit_replay_eq_of_keys cfg hk hp,
    fun cfg fs hnone => ?_⟩
  have hmem : ∀ n ∈ Audit.artifact_names,
      Audit.artifact_path n ∈ Audit.audit_missing cfg fs := by
    intro n hn
    unfold Audit.audit_missing
    apply List.mem_append_left
    apply List.mem_append_left
    apply List.mem_append_left
    apply List.mem_append_left
    apply List.mem_append_left
    simp only [List.mem_filterMap]
    exact ⟨n, hn, by simp [hnone n hn]⟩
  have h0 := hmem "project_profile" (by simp [Audit.artifact_names])
  constructor
  · simp only [Audit.build_audit_replay]
    cases hm : Audit.audit_missing cfg fs with
    | nil => rw [hm] at h0; simp at h0
    | cons a l => rfl
  · simp only [Audit.build_audit_replay]
    exact hmem

/-- C3 witness: on a resolved configuration with every artifact and rule
file present, the characterization applies and yields `replayable = true`
even though the stored `rule_sha256` does not match the recomputed
rule-file hash. -/
theorem C3_replayable_iff_files_exist_witness :
    (Audit.KgCfg.resolved c3cfg = true
      ∧ (Audit.build_audit_replay c3cfg c3fs).replayable
          = (Audit.artifact_names.all (fun n => FileSys.exists? c3fs (Audit.artifact_path n))
             && (Audit.audit_rule_paths c3cfg c3fs).all (FileSys.exists? c3fs)))
    ∧ (Audit.build_audit_replay c3cfg c3fs).replayable = true
    ∧ Audit.project_profile_rule_sha_match c3cfg c3fs = some false :=
  ⟨⟨by decide, C3_replayable_iff_files_exist.1 c3cfg c3fs (by decide)⟩,
    by decide, by decide⟩

/-- `find?` returns the head of the filtered list. -/
theorem find?_eq_filter_head {α : Type} (p : α → Bool) :
    ∀ l : List α, l.find? p = (l.filter p).head? := by
  intro l
  induction l with
  | nil => rfl
  | cons x xs ih =>
    by_cases hx : p x
    · rw [List.find?_cons_of_pos _ hx, List.filter_cons_of_pos hx]
      rfl
    · rw [List.find?_cons_of_neg _ (by simp [hx]), List.filter_cons_of_neg (by simp [hx])]
      exact ih

/-- The running best of `_resolve_domain`'s fold: starting from `(o, s)`,
it is unchanged when no score beats `s`, and otherwise lands on the first
entry attaining the maximal score. -/
theorem foldl_pick {α : Type} (f : α → Nat) :
    ∀ (l : List α) (o : Option α) (s : Nat),
      l.foldl (fun acc m => if f m > acc.2 then (some m, f m) else acc) (o, s)
      = if (l.map f).foldr max 0 ≤ s then (o, s)
        else (l.find? (fun m => f m = (l.map f).foldr max 0), (l.map f).foldr max 0) := by
  intro l
  induction l with
  | nil =>
    intro o s
    simp
  | cons m t ih =>
    intro o s
    simp only [List.foldl_cons, List.map_cons, List.foldr_cons]
    by_cases h1 : f m > s
    · rw [if_pos h1, ih]
      by_cases h2 : (t.map f).foldr max 0 ≤ f m
      · rw [if_pos h2]
        have hM : max (f m) ((t.map f).foldr max 0) = f m := max_eq_left h2
        simp only [hM]
        rw [if_neg (by omega), List.find?_cons_of_pos _ (by simp)]
      · push_neg at h2
        have hM : max (f m) ((t.map f).foldr max 0) = (t.map f).foldr max 0 :=
          max_eq_right (le_of_lt h2)
        rw [if_neg (by omega)]
        simp only [hM]
        rw [if_neg (by omega), List.find?_cons_of_neg _ (by simp; omega)]
    · rw [if_neg h1, ih]
      by_cases h2 : (t.map f).foldr max 0 ≤ s
      · rw [if_pos h2, if_pos (max_le (by omega) h2)]
      · push_neg at h2
        have hM : max (f m) ((t.map f).foldr max 0) = (t.map f).foldr max 0 :=
          max_eq_right (by omega)
        rw [if_neg (by omega)]
        simp only [hM]
        rw [if_neg (by omega), List.find?_cons_of_neg _ (by simp; omega)]

/-- `_resolve_domain`'s best pick, characterized: nothing at score `0`,
otherwise the first entry attaining the maximal score. -/
theorem pickBest_eq (q : String) (l : List KGContext.Entry) :
    KGContext.pickBest q l
      = if KGContext.maxScore q l ≤ 0 then ((none : Option KGContext.Entry), 0)
        else (l.find? (fun m => KGContext.score_map_entry m q = KGContext.maxScore q l),
              KGContext.maxScore q l) :=
  foldl_pick (fun m => KGContext.score_map_entry m q) l none 0

/-- The maximal entry score is invariant under reordering the
catalogue. -/
theorem maxScore_perm (q : String) {l₁ l₂ : List KGContext.Entry} (h : l₁.Perm l₂) :
    KGContext.maxScore q l₁ = KGContext.maxScore q l₂ := by
  unfold KGContext.maxScore
  induction h with
  | nil => rfl
  | cons x _ ih => simp only [List.map_cons, List.foldr_cons, ih]
  | swap x y l =>
    simp only [List.map_cons, List.foldr_cons]
    rw [max_left_comm]
  | trans _ _ ih1 ih2 => exact ih1.trans ih2

/-- With a zero or uniquely attained maximal score, the pick does not
depend on the catalogue's order. -/
theorem pickBest_perm (q : String) {l₁ l₂ : List KGContext.Entry} (h : l₁.Perm l₂)
    (hu : KGContext.maxScore q l₁ = 0
      ∨ (l₁.filter (fun m =>
          KGContext.score_map_entry m q = KGContext.maxScore q l₁)).length = 1) :
    KGContext.pickBest q l₁ = KGContext.pickBest q l₂ := by
  have hM := maxScore_perm q h
  rw [pickBest_eq q l₁, pickBest_eq q l₂, ← hM]
  by_cases hz : KGContext.maxScore q l₁ ≤ 0
  · rw [if_pos hz, if_pos hz]
  · rw [if_neg hz, if_neg hz]
    rcases hu with h0 | h1
    · exact absurd (le_of_eq h0) hz
    · obtain ⟨a, ha⟩ := List.length_eq_one.mp h1
      have hp : (l₁.filter (fun m =>
          KGContext.score_map_entry m q = KGContext.maxScore q l₁)).Perm
          (l₂.filter (fun m =>
          KGContext.score_map_entry m q = KGContext.maxScore q l₁)) := h.filter _
      rw [ha] at hp
      have h2 := List.singleton_perm.mp hp
      rw [find?_eq_filter_head, find?_eq_filter_head, ha, ← h2]

/-- C8.  Corrected statement.  Domain resolution is deterministic, and it
is order-independent exactly when no tie matters: for any reordering of
the catalogue, the result — `domain_key` included — is unchanged provided
the maximal score is `0` or attained by exactly one entry.  With two or
more entries sharing the top score, the fold's strict-greater update keeps
the earlier entry, so the selected `domain_key` itself (not merely a
tie-break order) depends on catalogue order (see the counterexample). -/
theorem C8_resolution_order_invariant_when_unique
    (l₁ l₂ : List KGContext.Entry) (pt topic : Option String)
    (hperm : l₁.Perm l₂)
    (hu : KGContext.maxScore (KGContext.build_query pt topic) l₁ = 0
      ∨ (l₁.filter (fun m => KGContext.score_map_entry m (KGContext.build_query pt topic)
            = KGContext.maxScore (KGContext.build_query pt topic) l₁)).length = 1) :
    KGContext.resolve_domain_entries l₁ pt topic
      = KGContext.resolve_domain_entries l₂ pt topic := by
  have hlen := hperm.length_eq
  have hpick := pickBest_perm (KGContext.build_query pt topic) hperm hu
  simp only [KGContext.resolve_domain_entries, hlen, hpick]

/-- C8 counterexample to the literal claim: the two-entry catalogue
`[装饰 -> decoration, 装修 -> building]` gives both entries the same top
score for the query built from project type `装饰装修`, and swapping the
two entries changes the selected `domain_key` from `decoration` to
`building`. -/
theorem C8_counterexample :
    (KGContext.resolve_domain
        (Json.obj [("maps", Json.arr [Json.obj c8entA, Json.obj c8entB])])
        (some "装饰装修") none).domain_key = some "decoration"
  ∧ (KGContext.resolve_domain
        (Json.obj [("maps", Json.arr [Json.obj c8entB, Json.obj c8entA])])
        (some "装饰装修") none).domain_key = some "building"
  ∧ KGContext.score_map_entry c8entA (KGContext.build_query (some "装饰装修") none)
      = KGContext.score_map_entry c8entB (KGContext.build_query (some "装饰装修") none) :=
  ⟨by decide, by decide, by decide⟩

/-- C8 witness: with a uniquely attained top score, swapping the two
catalogue entries leaves the resolution unchanged. -/
theorem C8_resolution_order_invariant_when_unique_witness :
    ([c8entA, c8entC].filter (fun m =>
        KGContext.score_map_entry m (KGContext.build_query (some "装饰装修") none)
          = KGContext.maxScore (KGContext.build_query (some "装饰装修") none)
              [c8entA, c8entC])).length = 1
    ∧ KGContext.resolve_domain_entries [c8entA, c8entC] (some "装饰装修") none
        = KGContext.resolve_domain_entries [c8entC, c8entA] (some "装饰装修") none :=
  ⟨by decide,
    C8_resolution_order_invariant_when_unique [c8entA, c8entC] [c8entC, c8entA]
      (some "装饰装修") none (List.Perm.swap c8entC c8entA []) (Or.inr (by decide))⟩
